import Mathlib

/-!
# grenadeFlag: the Grenade record and the plugin's event handler

A shallow embedding of `src/grenadeFlag/grenadeFlag.cpp`.

Conventions of the embedding.

* C++ `float` and `double` values are exact rationals (`ℚ`); rounding of
  floating-point arithmetic is outside the model.
* `bz_getCurrentTime()` is one reading `now` per handled event.
* The BZDB settings are stored as the rationals the server holds;
  `bz_getBZDBInt` reads one through a C cast to `int`.
* `std::map<int, Grenade*>` is an association list from player id to a
  nullable pointer (`Option Grenade`); dereferencing a null pointer is a
  fault, and a faulting handler returns `none`.
* Calls into the host (`bz_fireServerShot`, `bz_setShotMetaData`) are
  collected, in program order, in a list of `HostCall`.
-/

namespace GrenadeFlag

/-- A `float[3]`. -/
structure Vec3 where
  x : ℚ
  y : ℚ
  z : ℚ
deriving DecidableEq, Repr

/-- Modelled from the spec: the host's integer-valued accessor
`bz_getBZDBInt`, declared in `bzfsAPI.h` and not part of the sources. It
yields the stored value cast to `int`, which rounds toward zero. -/
def bz_getBZDBInt (v : ℚ) : Int :=
  if 0 ≤ v then ⌊v⌋ else ⌈v⌉

/-- The BZDB variables the plugin reads. -/
structure BZDB where
  shotSpeed : ℚ
  shotRange : ℚ
  muzzleFront : ℚ
  muzzleHeight : ℚ
  grenadeSpeedAdVel : ℚ
  grenadeVerticalVelocity : Bool
  grenadeWidth : ℚ
  grenadeAccuracy : ℚ
deriving DecidableEq, Repr

/-- Class `Grenade`: the information stored with each grenade fired. -/
structure Grenade where
  active : Bool
  origin : Vec3
  velocity : Vec3
  initialTime : ℚ
deriving DecidableEq, Repr

namespace Grenade

/-- Method `Grenade::init(pos, vel)`, called at time `now`. -/
def init (_g : Grenade) (pos vel : Vec3) (now : ℚ) : Grenade :=
  { active := true
    origin := ⟨pos.x, pos.y, pos.z⟩
    velocity := ⟨vel.x, vel.y, vel.z⟩
    initialTime := now }

/-- Method `Grenade::clear()`. -/
def clear (g : Grenade) : Grenade :=
  { active := false
    origin := ⟨0, 0, 0⟩
    velocity := ⟨0, 0, 0⟩
    initialTime := g.initialTime }

/-- Method `Grenade::isActive()`. -/
def isActive (g : Grenade) : Bool := g.active

/-- Method `Grenade::calculatePosition()`, evaluated at time `now`. -/
def calculatePosition (g : Grenade) (db : BZDB) (now : ℚ) : Vec3 :=
  let elapsedTime := now - g.initialTime
  { x := g.origin.x + g.velocity.x * elapsedTime * (bz_getBZDBInt db.shotSpeed : ℚ)
    y := g.origin.y + g.velocity.y * elapsedTime * (bz_getBZDBInt db.shotSpeed : ℚ)
    z := g.origin.z + g.velocity.z * elapsedTime * (bz_getBZDBInt db.shotSpeed : ℚ) }

/-- Method `Grenade::isExpired()`, evaluated at time `now`. -/
def isExpired (g : Grenade) (db : BZDB) (now : ℚ) : Bool :=
  if (g.calculatePosition db now).z ≤ 0 then
    true
  else if (now - g.initialTime) * (bz_getBZDBInt db.shotSpeed : ℚ)
      < (bz_getBZDBInt db.shotRange : ℚ) then
    false
  else
    true

end Grenade

/-- Player ids are the host's slot indices (`int playerID`, never negative);
the conversion to `uint32_t` in `bz_setShotMetaData` is the identity on them. -/
abbrev PlayerID := Nat

/-- A `bz_eTeamType` value. -/
abbrev Team := Int

/-- The part of `bz_PlayerUpdateState` the plugin reads. -/
structure PlayerUpdateState where
  pos : Vec3
  rotation : ℚ
  velocity : Vec3
deriving DecidableEq, Repr

/-- The part of `bz_BasePlayerRecord` the plugin reads. -/
structure BasePlayerRecord where
  currentFlag : String
  lastKnownState : PlayerUpdateState
deriving DecidableEq, Repr

/-- What the host answers while one event is handled. `cos` and `sin` are
the `<math.h>` functions, `randomUnit` is `((float) rand()) / (float) RAND_MAX`,
`shotGUID` is the value `bz_fireServerShot` returns. -/
structure Host where
  db : BZDB
  currentTime : ℚ
  randomUnit : ℚ
  cos : ℚ → ℚ
  sin : ℚ → ℚ
  getPlayerByIndex : PlayerID → Option BasePlayerRecord
  getPlayerTeam : PlayerID → Team
  shotGUID : Nat

/-- A value given to `bz_setShotMetaData`: the `const char*` overload or the
`uint32_t` overload. -/
inductive MetaData where
  | str (value : String)
  | uint (value : Nat)
deriving DecidableEq, Repr

/-- A call the plugin makes into the host. -/
inductive HostCall where
  | fireServerShot (shotType : String) (pos vel : Vec3) (team : Team)
  | setShotMetaData (shotGUID : Nat) (name : String) (value : MetaData)
deriving DecidableEq, Repr

/-- The member `map<int, Grenade*> grenadeMap`: entries in increasing key
order, each holding a pointer that may be null. -/
abbrev GrenadeMap := List (PlayerID × Option Grenade)

namespace GrenadeMap

/-- Lookup without insertion (`std::map::find`): `none` when the key is absent,
`some p` with the stored pointer `p` otherwise. -/
def find : GrenadeMap → PlayerID → Option (Option Grenade)
  | [], _ => none
  | (k, p) :: rest, id => if k = id then some p else find rest id

/-- Store pointer `p` under key `id`, replacing the entry when the key is
present and inserting it in key order otherwise. -/
def assign : GrenadeMap → PlayerID → Option Grenade → GrenadeMap
  | [], id, p => [(id, p)]
  | (k, q) :: rest, id, p =>
    if id < k then (id, p) :: (k, q) :: rest
    else if k = id then (id, p) :: rest
    else (k, q) :: assign rest id p

/-- Operator `std::map::operator[]`: the stored pointer, after inserting a null
pointer when the key is absent. -/
def index (m : GrenadeMap) (id : PlayerID) : GrenadeMap × Option Grenade :=
  match m.find id with
  | some p => (m, p)
  | none => (m.assign id none, none)

/-- Member `std::map::erase(key)`. -/
def erase (m : GrenadeMap) (id : PlayerID) : GrenadeMap :=
  m.filter (fun e => e.1 ≠ id)

end GrenadeMap

/-- Function `randomFloat(a, b)`, with `random` the unit draw. -/
def randomFloat (random a b : ℚ) : ℚ :=
  let diff := b - a
  let r := random * diff
  a + r

/-- The local `innacuracy` of the launch branch. -/
def launchInnacuracy (h : Host) : ℚ :=
  randomFloat h.randomUnit (-h.db.grenadeAccuracy) h.db.grenadeAccuracy

/-- The local `pos` of the launch branch: base/center position of the two PZ
shots. -/
def launchPos (h : Host) (playerRecord : BasePlayerRecord) : Vec3 :=
  { x := playerRecord.lastKnownState.pos.x
      + h.cos playerRecord.lastKnownState.rotation * h.db.muzzleFront
    y := playerRecord.lastKnownState.pos.y
      + h.sin playerRecord.lastKnownState.rotation * h.db.muzzleFront
    z := playerRecord.lastKnownState.pos.z + h.db.muzzleHeight }

/-- The local `offset` of the launch branch (two components). -/
def launchOffset (h : Host) (playerRecord : BasePlayerRecord) : ℚ × ℚ :=
  (-(h.sin playerRecord.lastKnownState.rotation) * h.db.grenadeWidth,
   h.cos playerRecord.lastKnownState.rotation * h.db.grenadeWidth)

/-- The local `vel` of the launch branch: velocity of the PZ shots. `abs` is
the floating-point overload. When `_shotSpeed` is 0 the C++ quotient is not
finite; the rational quotient is 0. -/
def launchVel (h : Host) (playerRecord : BasePlayerRecord) : Vec3 :=
  let innacuracy := launchInnacuracy h
  let vel0 := h.cos (playerRecord.lastKnownState.rotation + innacuracy) * h.db.grenadeSpeedAdVel
  let vel1 := h.sin (playerRecord.lastKnownState.rotation + innacuracy) * h.db.grenadeSpeedAdVel
  let vel2 := h.sin |innacuracy|
  let vel2 := if h.db.grenadeVerticalVelocity then
      vel2 + playerRecord.lastKnownState.velocity.z / h.db.shotSpeed
    else vel2
  ⟨vel0, vel1, vel2⟩

/-- The local `pos1`: position of one PZ shot. -/
def launchPos1 (h : Host) (playerRecord : BasePlayerRecord) : Vec3 :=
  let pos := launchPos h playerRecord
  let offset := launchOffset h playerRecord
  ⟨pos.x + offset.1, pos.y + offset.2, pos.z⟩

/-- The local `pos2`: position of the other PZ shot. -/
def launchPos2 (h : Host) (playerRecord : BasePlayerRecord) : Vec3 :=
  let pos := launchPos h playerRecord
  let offset := launchOffset h playerRecord
  ⟨pos.x - offset.1, pos.y - offset.2, pos.z⟩

/-- The flag label the fire handler compares `currentFlag` with. -/
def handledFlag : String := "GreNade (+GN)"

/-- Handler `GrenadeFlag::Event`, case `bz_eShotFiredEvent`, for `data->playerID`.
Returns the map afterwards and the host calls made, or `none` when a null
`Grenade*` is dereferenced. -/
def shotFiredEvent (h : Host) (grenadeMap : GrenadeMap) (playerID : PlayerID) :
    Option (GrenadeMap × List HostCall) :=
  match h.getPlayerByIndex playerID with
  | none => some (grenadeMap, [])
  | some playerRecord =>
    if playerRecord.currentFlag = handledFlag then
      match (grenadeMap.index playerID).2 with
      | none => none
      | some g =>
        -- If an active grenade is expired, clear it from the records.
        let g := if g.isActive then
            (if g.isExpired h.db h.currentTime then g.clear else g)
          else g
        if g.isActive = false then
          -- No active grenade: launch one.
          let vel := launchVel h playerRecord
          let pos := launchPos h playerRecord
          let pos1 := launchPos1 h playerRecord
          let pos2 := launchPos2 h playerRecord
          some (grenadeMap.assign playerID (some (g.init pos vel h.currentTime)),
            [HostCall.fireServerShot "PZ" pos1 vel (h.getPlayerTeam playerID),
             HostCall.fireServerShot "PZ" pos2 vel (h.getPlayerTeam playerID)])
        else
          -- If not, then we detonate it.
          let vel : Vec3 := ⟨0, 0, 0⟩
          let pos := g.calculatePosition h.db h.currentTime
          some (grenadeMap.assign playerID (some g.clear),
            [HostCall.fireServerShot "SW" pos vel (h.getPlayerTeam playerID),
             HostCall.setShotMetaData h.shotGUID "type" (MetaData.str "GN"),
             HostCall.setShotMetaData h.shotGUID "owner" (MetaData.uint playerID)])
    else
      some (grenadeMap, [])

/-- The object `new Grenade()` creates: `active` is false; the other members
are left uninitialised by the constructor and are taken as 0 (they are
written by `init` before any read). -/
def Grenade.new : Grenade :=
  { active := false, origin := ⟨0, 0, 0⟩, velocity := ⟨0, 0, 0⟩, initialTime := 0 }

/-- Handler `GrenadeFlag::Event`, case `bz_ePlayerJoinEvent`. -/
def playerJoinEvent (grenadeMap : GrenadeMap) (playerID : PlayerID) : GrenadeMap :=
  grenadeMap.assign playerID (some Grenade.new)

/-- Handler `GrenadeFlag::Event`, case `bz_ePlayerPartEvent`: `delete grenadeMap[id]`
(deleting a null pointer does nothing), then `erase`. -/
def playerPartEvent (grenadeMap : GrenadeMap) (playerID : PlayerID) : GrenadeMap :=
  (grenadeMap.index playerID).1.erase playerID

/-- The part of `bz_PlayerDieEventData_V1` the plugin reads or writes. -/
structure PlayerDieEventData where
  playerID : PlayerID
  killerID : PlayerID
  killerTeam : Team
  shotID : Int
deriving DecidableEq, Repr

/-- What the host answers about shots while a death event is handled:
`bz_getShotGUID`, `bz_shotHasMetaData`, `bz_getShotMetaDataS` and
`bz_getShotMetaDataI`. -/
structure ShotHost where
  getShotGUID : PlayerID → Int → Nat
  shotHasMetaData : Nat → String → Bool
  getShotMetaDataS : Nat → String → String
  getShotMetaDataI : Nat → String → Nat

/-- Handler `GrenadeFlag::Event`, case `bz_ePlayerDieEvent`: the event record
after the handler. The map is not touched. -/
def playerDieEvent (h : Host) (s : ShotHost) (data : PlayerDieEventData) :
    PlayerDieEventData :=
  -- Grab the shot's meta data
  let shotGUID := s.getShotGUID data.killerID data.shotID
  -- First check whether this shot has a "type" and "owner" assigned.
  if s.shotHasMetaData shotGUID "type" && s.shotHasMetaData shotGUID "owner" then
    let flagType := s.getShotMetaDataS shotGUID "type"
    if flagType = "GN" then
      -- Assign the killer ID to be that in the shot.
      let killerID := s.getShotMetaDataI shotGUID "owner"
      { data with killerID := killerID, killerTeam := h.getPlayerTeam killerID }
    else data
  else data

/-- The events `Init` registers for, and any other event type. -/
inductive EventData where
  | shotFired (playerID : PlayerID)
  | playerDie (data : PlayerDieEventData)
  | playerJoin (playerID : PlayerID)
  | playerPart (playerID : PlayerID)
  | other
deriving DecidableEq, Repr

/-- What one call of `GrenadeFlag::Event` leaves behind: the map, the host
calls made, and the event record (the death handler writes to it). -/
structure EventResult where
  grenadeMap : GrenadeMap
  calls : List HostCall
  eventData : EventData
deriving DecidableEq, Repr

/-- Method `GrenadeFlag::Event`: the switch over `eventData->eventType`. `none`
when the handler faults. -/
def Event (h : Host) (s : ShotHost) (grenadeMap : GrenadeMap) (eventData : EventData) :
    Option EventResult :=
  match eventData with
  | EventData.shotFired playerID =>
    match shotFiredEvent h grenadeMap playerID with
    | none => none
    | some r => some ⟨r.1, r.2, eventData⟩
  | EventData.playerDie data =>
    some ⟨grenadeMap, [], EventData.playerDie (playerDieEvent h s data)⟩
  | EventData.playerJoin playerID =>
    some ⟨playerJoinEvent grenadeMap playerID, [], eventData⟩
  | EventData.playerPart playerID =>
    some ⟨playerPartEvent grenadeMap playerID, [], eventData⟩
  | EventData.other => some ⟨grenadeMap, [], eventData⟩

/-- One event as the host delivers it, with what the host answers while it
is handled. -/
structure Step where
  host : Host
  shots : ShotHost
  eventData : EventData

/-- The map after the host has delivered the events of `steps` in order,
starting from `grenadeMap`; `none` when one of the handlers faults. -/
def run : GrenadeMap → List Step → Option GrenadeMap
  | grenadeMap, [] => some grenadeMap
  | grenadeMap, st :: rest =>
    match Event st.host st.shots grenadeMap st.eventData with
    | none => none
    | some r => run r.grenadeMap rest

/-- A join precedes every fire event of a player: each fire event is for a
player who has joined and not parted since. `joined` lists the players
present before `steps`. -/
def firesAfterJoin : List PlayerID → List Step → Bool
  | _, [] => true
  | joined, st :: rest =>
    match st.eventData with
    | EventData.shotFired playerID =>
      joined.contains playerID && firesAfterJoin joined rest
    | EventData.playerJoin playerID => firesAfterJoin (playerID :: joined) rest
    | EventData.playerPart playerID =>
      firesAfterJoin (joined.filter (fun q => q ≠ playerID)) rest
    | _ => firesAfterJoin joined rest

namespace GrenadeMap

/-- The number of entries the map holds for player `P`. -/
def recordCount (m : GrenadeMap) (P : PlayerID) : Nat :=
  (m.filter (fun e => decide (e.1 = P))).length

/-- Whether an entry holds an active grenade. -/
def entryArmed (e : PlayerID × Option Grenade) : Bool :=
  match e.2 with
  | some g => g.isActive
  | none => false

/-- The number of active grenades the map holds for player `P`. -/
def armedCount (m : GrenadeMap) (P : PlayerID) : Nat :=
  (m.filter (fun e => decide (e.1 = P) && entryArmed e)).length

/-- The keys are in strictly increasing order, as `std::map` keeps them. -/
def Ordered (m : GrenadeMap) : Prop :=
  (m.map Prod.fst).Pairwise (fun a b => a < b)

end GrenadeMap

/-- The arguments `Init` gives to `bz_RegisterCustomFlag`: abbreviation. -/
def registeredFlagAbbv : String := "GN"

/-- The arguments `Init` gives to `bz_RegisterCustomFlag`: name. -/
def registeredFlagName : String := "Grenade"

/-! ## Concrete inputs used by the witnesses -/

/-- A configuration with the stock values of the host and of `Init`. -/
def stockDB : BZDB :=
  { shotSpeed := 100, shotRange := 350, muzzleFront := 4, muzzleHeight := 1,
    grenadeSpeedAdVel := 4, grenadeVerticalVelocity := false,
    grenadeWidth := 2, grenadeAccuracy := 0 }

/-- A shooter standing at the world origin with heading 0, holding the flag
the handler looks for. -/
def stockPlayer : BasePlayerRecord :=
  { currentFlag := "GreNade (+GN)"
    lastKnownState := { pos := ⟨0, 0, 0⟩, rotation := 0, velocity := ⟨0, 0, 0⟩ } }

/-- A host at time `now`; `cos` and `sin` answer with their values at 0, the
only heading the stock shooter has. -/
def stockHost (now : ℚ) : Host :=
  { db := stockDB, currentTime := now, randomUnit := 1 / 2,
    cos := fun _ => 1, sin := fun _ => 0,
    getPlayerByIndex := fun _ => some stockPlayer,
    getPlayerTeam := fun _ => 1, shotGUID := 7 }

/-- A grenade in flight since time 0, launched by the stock shooter. -/
def flyingGrenade : Grenade :=
  { active := true, origin := ⟨4, 0, 1⟩, velocity := ⟨4, 0, 0⟩, initialTime := 0 }

/-- A grenade launched at time 0 with a downward velocity. -/
def fallenGrenade : Grenade :=
  { active := true, origin := ⟨4, 0, 1⟩, velocity := ⟨4, 0, -1⟩, initialTime := 0 }

/-- A shot store in which shot 9 of player 5 is a blast tagged by the fire
handler for owner 3, and no other shot carries metadata. -/
def stockShots : ShotHost :=
  { getShotGUID := fun killerID shotID => if killerID = 5 ∧ shotID = 9 then 7 else 0
    shotHasMetaData := fun guid name => decide (guid = 7 ∧ (name = "type" ∨ name = "owner"))
    getShotMetaDataS := fun guid name => if guid = 7 ∧ name = "type" then "GN" else ""
    getShotMetaDataI := fun guid name => if guid = 7 ∧ name = "owner" then 3 else 0 }

/-- A death of player 2, reported by the host as killed by shot 9 of
player 5. -/
def stockDeath : PlayerDieEventData :=
  { playerID := 2, killerID := 5, killerTeam := 4, shotID := 9 }

/-- The stock player joins and fires at time 0. -/
def stockSteps : List Step :=
  [⟨stockHost 0, stockShots, EventData.playerJoin 3⟩,
   ⟨stockHost 0, stockShots, EventData.shotFired 3⟩]

/-- The stock configuration with a `_shotSpeed` that is not a whole number. -/
def fractionalDB : BZDB := { stockDB with shotSpeed := 100.5 }

/-- The stock shooter with the label made of the registered name, " (+",
the registered abbreviation and ")". -/
def plainLabelPlayer : BasePlayerRecord :=
  { stockPlayer with currentFlag := "Grenade (+GN)" }

/-- The stock host, answering with `plainLabelPlayer` for every player. -/
def plainLabelHost (now : ℚ) : Host :=
  { stockHost now with getPlayerByIndex := fun _ => some plainLabelPlayer }

/-- A tracker holding a grenade in flight for player 3 and an idle record
for player 5. -/
def twoPlayerMap : GrenadeMap :=
  [(3, some flyingGrenade), (5, some Grenade.new)]

/-! ## The integer accessor -/

theorem bz_getBZDBInt_intCast (n : Int) : bz_getBZDBInt (n : ℚ) = n := by
  unfold bz_getBZDBInt
  split <;> simp

theorem bz_getBZDBInt_nonneg {v : ℚ} (hv : 0 ≤ v) : 0 ≤ bz_getBZDBInt v := by
  unfold bz_getBZDBInt
  rw [if_pos hv]
  exact Int.floor_nonneg.mpr hv

namespace GrenadeMap

theorem find_assign_self (m : GrenadeMap) (id : PlayerID) (p : Option Grenade) :
    (m.assign id p).find id = some p := by
  induction m with
  | nil => simp [assign, find]
  | cons e rest ih =>
    obtain ⟨k, q⟩ := e
    unfold assign
    split
    · simp [find]
    · split
      · simp [find]
      · rename_i hne
        simp [find, hne, ih]

theorem find_assign_of_ne (m : GrenadeMap) {id other : PlayerID} (p : Option Grenade)
    (hne : other ≠ id) : (m.assign id p).find other = m.find other := by
  induction m with
  | nil => simp [assign, find, Ne.symm hne]
  | cons e rest ih =>
    obtain ⟨k, q⟩ := e
    unfold assign
    split
    · simp [find, Ne.symm hne]
    · split
      · rename_i hk
        simp [find, hk, Ne.symm hne]
      · simp [find, ih]

theorem assign_assign (m : GrenadeMap) (id : PlayerID) (p q : Option Grenade) :
    (m.assign id p).assign id q = m.assign id q := by
  induction m with
  | nil => simp [assign]
  | cons e rest ih =>
    obtain ⟨k, r⟩ := e
    by_cases hlt : id < k
    · simp [assign, hlt]
    · by_cases hk : k = id
      · simp [assign, hk]
      · simp [assign, hlt, hk, ih]

theorem index_of_find {m : GrenadeMap} {id : PlayerID} {p : Option Grenade}
    (hfind : m.find id = some p) : m.index id = (m, p) := by
  simp [index, hfind]

theorem index_snd_of_absent {m : GrenadeMap} {id : PlayerID}
    (hfind : m.find id = none) : (m.index id).2 = none := by
  simp [index, hfind]

end GrenadeMap

/-! ## The fire handler -/

/-- The detonate branch as the code computes it. A fire event for a player `P`
who passes the handler's flag check and whose record is active and not
expired: the host calls are exactly one "SW"
shot followed by its two metadata entries (no "PZ" shot); the shot has
velocity (0,0,0) and sits, on each axis, at
`origin + velocity * (now - initialTime) * shotSpeed` for the origin and
velocity stored in the record, `shotSpeed` being the value the code reads
with `bz_getBZDBInt`; the entries are type "GN" and owner `P`; afterwards
the record of `P` is inactive. -/
theorem shotFired_detonates (h : Host) (m : GrenadeMap) (P : PlayerID)
    (playerRecord : BasePlayerRecord) (g : Grenade)
    (hplayer : h.getPlayerByIndex P = some playerRecord)
    (hflag : playerRecord.currentFlag = handledFlag)
    (hrec : m.find P = some (some g))
    (hactive : g.isActive = true)
    (hfresh : g.isExpired h.db h.currentTime = false) :
    shotFiredEvent h m P
        = some (m.assign P (some g.clear),
            [HostCall.fireServerShot "SW"
               ⟨g.origin.x + g.velocity.x * (h.currentTime - g.initialTime)
                  * (bz_getBZDBInt h.db.shotSpeed : ℚ),
                g.origin.y + g.velocity.y * (h.currentTime - g.initialTime)
                  * (bz_getBZDBInt h.db.shotSpeed : ℚ),
                g.origin.z + g.velocity.z * (h.currentTime - g.initialTime)
                  * (bz_getBZDBInt h.db.shotSpeed : ℚ)⟩
               ⟨0, 0, 0⟩ (h.getPlayerTeam P),
             HostCall.setShotMetaData h.shotGUID "type" (MetaData.str "GN"),
             HostCall.setShotMetaData h.shotGUID "owner" (MetaData.uint P)])
      ∧ (m.assign P (some g.clear)).find P = some (some g.clear)
      ∧ g.clear.isActive = false := by
  refine ⟨?_, GrenadeMap.find_assign_self m P _, rfl⟩
  simp [shotFiredEvent, hplayer, hflag, GrenadeMap.index_of_find hrec, hactive, hfresh,
    Grenade.calculatePosition]

/-- The detonate branch at a concrete input: the stock shooter fires again
one second after the launch. -/
theorem shotFired_detonates_witness :
    (stockHost 1).getPlayerByIndex 3 = some stockPlayer
      ∧ stockPlayer.currentFlag = handledFlag
      ∧ GrenadeMap.find [(3, some flyingGrenade)] 3 = some (some flyingGrenade)
      ∧ flyingGrenade.isActive = true
      ∧ flyingGrenade.isExpired (stockHost 1).db (stockHost 1).currentTime = false
      ∧ shotFiredEvent (stockHost 1) [(3, some flyingGrenade)] 3
          = some ([(3, some flyingGrenade.clear)],
              [HostCall.fireServerShot "SW" ⟨404, 0, 1⟩ ⟨0, 0, 0⟩ 1,
               HostCall.setShotMetaData 7 "type" (MetaData.str "GN"),
               HostCall.setShotMetaData 7 "owner" (MetaData.uint 3)]) := by
  have hfresh : flyingGrenade.isExpired (stockHost 1).db (stockHost 1).currentTime = false := by
    have h100 : bz_getBZDBInt (100 : ℚ) = 100 := bz_getBZDBInt_intCast 100
    have h350 : bz_getBZDBInt (350 : ℚ) = 350 := bz_getBZDBInt_intCast 350
    simp [Grenade.isExpired, Grenade.calculatePosition, flyingGrenade, stockHost, stockDB,
      h100, h350]
    norm_num
  have hrun := (shotFired_detonates (stockHost 1) [(3, some flyingGrenade)] 3 stockPlayer
    flyingGrenade rfl rfl (by simp [GrenadeMap.find]) rfl hfresh).1
  refine ⟨rfl, rfl, by simp [GrenadeMap.find], rfl, hfresh, ?_⟩
  rw [hrun]
  have h100 : bz_getBZDBInt (100 : ℚ) = 100 := bz_getBZDBInt_intCast 100
  simp [GrenadeMap.assign, flyingGrenade, stockHost, stockDB, h100]
  norm_num

theorem launchPos_ne_launchPos1 (h : Host) (playerRecord : BasePlayerRecord)
    (hoff : launchOffset h playerRecord ≠ (0, 0)) :
    launchPos h playerRecord ≠ launchPos1 h playerRecord := by
  intro heq
  apply hoff
  have hx := congrArg Vec3.x heq
  have hy := congrArg Vec3.y heq
  simp only [launchPos1] at hx hy
  exact Prod.ext (by simpa using hx) (by simpa using hy)

theorem launchPos_ne_launchPos2 (h : Host) (playerRecord : BasePlayerRecord)
    (hoff : launchOffset h playerRecord ≠ (0, 0)) :
    launchPos h playerRecord ≠ launchPos2 h playerRecord := by
  intro heq
  apply hoff
  have hx := congrArg Vec3.x heq
  have hy := congrArg Vec3.y heq
  simp only [launchPos2] at hx hy
  exact Prod.ext (by simpa using sub_eq_self.mp hx.symm) (by simpa using sub_eq_self.mp hy.symm)

/-- What the launch branch does, whatever record it starts from: the map and
host calls it produces once the record it works on is inactive. -/
theorem shotFired_launch_of_inactive (h : Host) (m : GrenadeMap) (P : PlayerID)
    (playerRecord : BasePlayerRecord) (g : Grenade)
    (hplayer : h.getPlayerByIndex P = some playerRecord)
    (hflag : playerRecord.currentFlag = handledFlag)
    (hrec : m.find P = some (some g))
    (hidle : (g.isActive = true → g.isExpired h.db h.currentTime = true)) :
    shotFiredEvent h m P
      = some (m.assign P (some
            { active := true, origin := launchPos h playerRecord,
              velocity := launchVel h playerRecord, initialTime := h.currentTime }),
          [HostCall.fireServerShot "PZ" (launchPos1 h playerRecord)
             (launchVel h playerRecord) (h.getPlayerTeam P),
           HostCall.fireServerShot "PZ" (launchPos2 h playerRecord)
             (launchVel h playerRecord) (h.getPlayerTeam P)]) := by
  cases hact : g.isActive with
  | false =>
    simp [shotFiredEvent, hplayer, hflag, GrenadeMap.index_of_find hrec, hact, Grenade.init]
  | true =>
    have hexp := hidle hact
    simp only [Grenade.isActive] at hact
    simp [shotFiredEvent, hplayer, hflag, GrenadeMap.index_of_find hrec, hact, hexp,
      Grenade.init, Grenade.clear, Grenade.isActive]

/-- C2. A fire event for a player `P` who passes the handler's flag check and
whose record is inactive: afterwards the record of `P` is active, its origin
is the centre position (shooter position plus `muzzleFront` along the
heading, plus `muzzleHeight` vertically), its velocity is the velocity given
to both side shots, its launch time is the current time, and the host calls
are exactly two "PZ" shots (no "SW" shot), placed at the centre plus and
minus the offset; whenever the offset is not zero the stored origin differs
from both side-shot positions. -/
theorem shotFired_launches (h : Host) (m : GrenadeMap) (P : PlayerID)
    (playerRecord : BasePlayerRecord) (g : Grenade)
    (hplayer : h.getPlayerByIndex P = some playerRecord)
    (hflag : playerRecord.currentFlag = handledFlag)
    (hrec : m.find P = some (some g))
    (hinactive : g.isActive = false) :
    ∃ stored : Grenade,
      shotFiredEvent h m P
        = some (m.assign P (some stored),
            [HostCall.fireServerShot "PZ" (launchPos1 h playerRecord)
               (launchVel h playerRecord) (h.getPlayerTeam P),
             HostCall.fireServerShot "PZ" (launchPos2 h playerRecord)
               (launchVel h playerRecord) (h.getPlayerTeam P)])
      ∧ (m.assign P (some stored)).find P = some (some stored)
      ∧ stored.isActive = true
      ∧ stored.origin
          = ⟨playerRecord.lastKnownState.pos.x
               + h.cos playerRecord.lastKnownState.rotation * h.db.muzzleFront,
             playerRecord.lastKnownState.pos.y
               + h.sin playerRecord.lastKnownState.rotation * h.db.muzzleFront,
             playerRecord.lastKnownState.pos.z + h.db.muzzleHeight⟩
      ∧ stored.velocity = launchVel h playerRecord
      ∧ stored.initialTime = h.currentTime
      ∧ launchPos1 h playerRecord
          = ⟨stored.origin.x + (launchOffset h playerRecord).1,
             stored.origin.y + (launchOffset h playerRecord).2, stored.origin.z⟩
      ∧ launchPos2 h playerRecord
          = ⟨stored.origin.x - (launchOffset h playerRecord).1,
             stored.origin.y - (launchOffset h playerRecord).2, stored.origin.z⟩
      ∧ (launchOffset h playerRecord ≠ (0, 0) →
          stored.origin ≠ launchPos1 h playerRecord
            ∧ stored.origin ≠ launchPos2 h playerRecord) := by
  refine ⟨{ active := true, origin := launchPos h playerRecord,
            velocity := launchVel h playerRecord, initialTime := h.currentTime },
    ?_, GrenadeMap.find_assign_self m P _, rfl, rfl, rfl, rfl, rfl, rfl, ?_⟩
  · exact shotFired_launch_of_inactive h m P playerRecord g hplayer hflag hrec
      (fun hact => by rw [hinactive] at hact; cases hact)
  · intro hoff
    exact ⟨launchPos_ne_launchPos1 h playerRecord hoff,
      launchPos_ne_launchPos2 h playerRecord hoff⟩

/-- Witness for C2: the stock shooter, just joined, fires at time 0. -/
theorem shotFired_launches_witness :
    (stockHost 0).getPlayerByIndex 3 = some stockPlayer
      ∧ stockPlayer.currentFlag = handledFlag
      ∧ GrenadeMap.find [(3, some Grenade.new)] 3 = some (some Grenade.new)
      ∧ Grenade.new.isActive = false
      ∧ ∃ stored : Grenade,
          shotFiredEvent (stockHost 0) [(3, some Grenade.new)] 3
            = some ([(3, some stored)],
                [HostCall.fireServerShot "PZ" ⟨4, 2, 1⟩ ⟨4, 0, 0⟩ 1,
                 HostCall.fireServerShot "PZ" ⟨4, -2, 1⟩ ⟨4, 0, 0⟩ 1])
          ∧ stored = flyingGrenade := by
  obtain ⟨stored, hrun, -, hact, horigin, hvel, htime, -⟩ :=
    shotFired_launches (stockHost 0) [(3, some Grenade.new)] 3 stockPlayer Grenade.new
      rfl rfl (by simp [GrenadeMap.find]) rfl
  refine ⟨rfl, rfl, by simp [GrenadeMap.find], rfl, stored, ?_, ?_⟩
  · rw [hrun]
    simp [GrenadeMap.assign, launchPos1, launchPos2, launchPos, launchOffset, launchVel,
      launchInnacuracy, randomFloat, stockHost, stockDB, stockPlayer]
  · obtain ⟨a, o, v, t⟩ := stored
    simp only [Grenade.isActive] at hact
    simp only at horigin hvel htime
    subst hact horigin hvel htime
    simp [flyingGrenade, launchVel, launchInnacuracy, randomFloat, stockHost, stockDB,
      stockPlayer]

/-- C3. A fire event for a player `P` who passes the handler's flag check and
whose record is active but expired: the record is cleared first and the event
is a launch. The host calls are exactly two "PZ" shots, with no "SW" shot and
no metadata entry, and the record ends active with the centre position, the
velocity and the time of this event, none of them taken from the expired
grenade. -/
theorem shotFired_relaunches_expired (h : Host) (m : GrenadeMap) (P : PlayerID)
    (playerRecord : BasePlayerRecord) (g : Grenade)
    (hplayer : h.getPlayerByIndex P = some playerRecord)
    (hflag : playerRecord.currentFlag = handledFlag)
    (hrec : m.find P = some (some g))
    (hactive : g.isActive = true)
    (hexpired : g.isExpired h.db h.currentTime = true) :
    shotFiredEvent h m P
        = some (m.assign P (some
              { active := true, origin := launchPos h playerRecord,
                velocity := launchVel h playerRecord, initialTime := h.currentTime }),
            [HostCall.fireServerShot "PZ" (launchPos1 h playerRecord)
               (launchVel h playerRecord) (h.getPlayerTeam P),
             HostCall.fireServerShot "PZ" (launchPos2 h playerRecord)
               (launchVel h playerRecord) (h.getPlayerTeam P)])
      ∧ (m.assign P (some
              { active := true, origin := launchPos h playerRecord,
                velocity := launchVel h playerRecord, initialTime := h.currentTime })).find P
          = some (some
              { active := true, origin := launchPos h playerRecord,
                velocity := launchVel h playerRecord, initialTime := h.currentTime })
      ∧ shotFiredEvent h m P = shotFiredEvent h (m.assign P (some g.clear)) P
      ∧ (if g.isActive then (if g.isExpired h.db h.currentTime then g.clear else g) else g)
          = g.clear := by
  have hrun := shotFired_launch_of_inactive h m P playerRecord g hplayer hflag hrec
    (fun _ => hexpired)
  refine ⟨hrun, GrenadeMap.find_assign_self m P _, ?_, by simp [hactive, hexpired]⟩
  rw [hrun, shotFired_launch_of_inactive h (m.assign P (some g.clear)) P playerRecord g.clear
    hplayer hflag (GrenadeMap.find_assign_self m P _) (fun hact => by cases hact),
    GrenadeMap.assign_assign]

/-- Witness for C3: the stock shooter fires one second after launching a
grenade whose projected height has dropped below the ground. -/
theorem shotFired_relaunches_expired_witness :
    (stockHost 1).getPlayerByIndex 3 = some stockPlayer
      ∧ stockPlayer.currentFlag = handledFlag
      ∧ GrenadeMap.find [(3, some fallenGrenade)] 3 = some (some fallenGrenade)
      ∧ fallenGrenade.isActive = true
      ∧ fallenGrenade.isExpired (stockHost 1).db (stockHost 1).currentTime = true
      ∧ shotFiredEvent (stockHost 1) [(3, some fallenGrenade)] 3
          = some ([(3, some { active := true, origin := ⟨4, 0, 1⟩, velocity := ⟨4, 0, 0⟩,
                              initialTime := 1 })],
              [HostCall.fireServerShot "PZ" ⟨4, 2, 1⟩ ⟨4, 0, 0⟩ 1,
               HostCall.fireServerShot "PZ" ⟨4, -2, 1⟩ ⟨4, 0, 0⟩ 1]) := by
  have hexpired :
      fallenGrenade.isExpired (stockHost 1).db (stockHost 1).currentTime = true := by
    have h100 : bz_getBZDBInt (100 : ℚ) = 100 := bz_getBZDBInt_intCast 100
    simp [Grenade.isExpired, Grenade.calculatePosition, fallenGrenade, stockHost, stockDB, h100]
  have hrun := (shotFired_relaunches_expired (stockHost 1) [(3, some fallenGrenade)] 3
    stockPlayer fallenGrenade rfl rfl (by simp [GrenadeMap.find]) rfl hexpired).1
  refine ⟨rfl, rfl, by simp [GrenadeMap.find], rfl, hexpired, ?_⟩
  rw [hrun]
  simp [GrenadeMap.assign, launchPos1, launchPos2, launchPos, launchOffset, launchVel,
    launchInnacuracy, randomFloat, stockHost, stockDB, stockPlayer]

/-! ## Trajectory and expiration -/

theorem isExpired_eq_true_iff (g : Grenade) (db : BZDB) (now : ℚ) :
    g.isExpired db now = true ↔
      (g.calculatePosition db now).z ≤ 0
        ∨ (bz_getBZDBInt db.shotRange : ℚ)
            ≤ (now - g.initialTime) * (bz_getBZDBInt db.shotSpeed : ℚ) := by
  unfold Grenade.isExpired
  split_ifs with hz hr
  · simp [hz]
  · simp [not_le.mp hz, hr]
  · simp [not_lt.mp hr]

theorem isExpired_eq_false_iff (g : Grenade) (db : BZDB) (now : ℚ) :
    g.isExpired db now = false ↔
      0 < (g.calculatePosition db now).z
        ∧ (now - g.initialTime) * (bz_getBZDBInt db.shotSpeed : ℚ)
            < (bz_getBZDBInt db.shotRange : ℚ) := by
  unfold Grenade.isExpired
  split_ifs with hz hr
  · simp [hz]
  · simp [not_le.mp hz, hr]
  · simp [not_lt.mp hr]

/-- The branch logic of `isExpired` on the values the code reads. For every
record, current time and configuration, `isExpired` returns true exactly when the projected z-coordinate `calculatePosition()[2]` is
`<= 0` or the distance travelled `elapsed * shotSpeed` is `>= shotRange`, and
false exactly when z is `> 0` and `elapsed * shotSpeed < shotRange`;
`shotSpeed` and `shotRange` are the values the code reads with
`bz_getBZDBInt`. -/
theorem isExpired_iff (g : Grenade) (db : BZDB) (now : ℚ) :
    (g.isExpired db now = true ↔
        (g.calculatePosition db now).z ≤ 0
          ∨ (bz_getBZDBInt db.shotRange : ℚ)
              ≤ (now - g.initialTime) * (bz_getBZDBInt db.shotSpeed : ℚ))
      ∧ (g.isExpired db now = false ↔
        0 < (g.calculatePosition db now).z
          ∧ (now - g.initialTime) * (bz_getBZDBInt db.shotSpeed : ℚ)
              < (bz_getBZDBInt db.shotRange : ℚ)) :=
  ⟨isExpired_eq_true_iff g db now, isExpired_eq_false_iff g db now⟩

/-- C5, evaluated at the failing input: with `_shotSpeed` set to 100.5 a
grenade launched from the world origin with velocity (1,0,0) is placed after
one second at x = 100, not at `origin + velocity * elapsed * 100.5`. -/
theorem calculatePosition_truncates_shotSpeed :
    (Grenade.calculatePosition
        { active := true, origin := ⟨0, 0, 0⟩, velocity := ⟨1, 0, 0⟩, initialTime := 0 }
        { stockDB with shotSpeed := 100.5 } 1).x = 100
      ∧ (Grenade.calculatePosition
        { active := true, origin := ⟨0, 0, 0⟩, velocity := ⟨1, 0, 0⟩, initialTime := 0 }
        { stockDB with shotSpeed := 100.5 } 1).x ≠ 0 + 1 * (1 - 0) * (100.5 : ℚ) := by
  have htrunc : bz_getBZDBInt (100.5 : ℚ) = 100 := by
    norm_num [bz_getBZDBInt, Int.floor_eq_iff]
  constructor
  · simp [Grenade.calculatePosition, htrunc]
  · simp [Grenade.calculatePosition, htrunc]
    norm_num

/-- C8 fails as stated. With the stock configuration (`_shotSpeed` 100 `> 0`,
range-consuming) a grenade starting at ground level with an upward velocity
is expired at elapsed time 0 and not expired one second later; and with a
negative `_shotSpeed` a grenade with a downward velocity does the same. -/
theorem isExpired_mono_counterexample :
    (0 : ℚ) < stockDB.shotSpeed
      ∧ Grenade.isExpired
          { active := true, origin := ⟨4, 0, 0⟩, velocity := ⟨4, 0, 1⟩, initialTime := 0 }
          stockDB 0 = true
      ∧ Grenade.isExpired
          { active := true, origin := ⟨4, 0, 0⟩, velocity := ⟨4, 0, 1⟩, initialTime := 0 }
          stockDB 1 = false
      ∧ Grenade.isExpired
          { active := true, origin := ⟨4, 0, 0⟩, velocity := ⟨4, 0, -1⟩, initialTime := 0 }
          { stockDB with shotSpeed := -100 } 0 = true
      ∧ Grenade.isExpired
          { active := true, origin := ⟨4, 0, 0⟩, velocity := ⟨4, 0, -1⟩, initialTime := 0 }
          { stockDB with shotSpeed := -100 } 1 = false := by
  have h100 : bz_getBZDBInt (100 : ℚ) = 100 := bz_getBZDBInt_intCast 100
  have h350 : bz_getBZDBInt (350 : ℚ) = 350 := bz_getBZDBInt_intCast 350
  have hneg : bz_getBZDBInt (-100 : ℚ) = -100 := by
    simpa using bz_getBZDBInt_intCast (-100)
  refine ⟨by simp [stockDB], ?_, ?_, ?_, ?_⟩
  · simp [Grenade.isExpired, Grenade.calculatePosition]
  · simp [Grenade.isExpired, Grenade.calculatePosition, stockDB, h100, h350]
    norm_num
  · simp [Grenade.isExpired, Grenade.calculatePosition]
  · simp [Grenade.isExpired, Grenade.calculatePosition, stockDB, hneg, h350]
    norm_num

/-- C8, amended. For every origin and `_shotRange`, every `_shotSpeed` that
is not negative, and every velocity that is not upward (vertical component
`<= 0`) or else every origin above ground (`origin.z > 0`): for all elapsed
times `0 <= t1 <= t2`, if `isExpired` is true at `t1` it is true at `t2`. -/
theorem isExpired_mono (g : Grenade) (db : BZDB) (now1 now2 : ℚ)
    (hspeed : 0 ≤ db.shotSpeed)
    (hvel : g.velocity.z ≤ 0 ∨ 0 < g.origin.z)
    (hstart : g.initialTime ≤ now1) (hle : now1 ≤ now2)
    (hexpired : g.isExpired db now1 = true) :
    g.isExpired db now2 = true := by
  have hs : (0 : ℚ) ≤ (bz_getBZDBInt db.shotSpeed : ℚ) := by
    exact_mod_cast bz_getBZDBInt_nonneg hspeed
  have hdist : (now1 - g.initialTime) * (bz_getBZDBInt db.shotSpeed : ℚ)
      ≤ (now2 - g.initialTime) * (bz_getBZDBInt db.shotSpeed : ℚ) :=
    mul_le_mul_of_nonneg_right (by linarith) hs
  have hdist0 : 0 ≤ (now1 - g.initialTime) * (bz_getBZDBInt db.shotSpeed : ℚ) :=
    mul_nonneg (by linarith) hs
  rw [isExpired_eq_true_iff] at hexpired
  rw [isExpired_eq_true_iff]
  simp only [Grenade.calculatePosition] at hexpired ⊢
  rcases hexpired with hz | hr
  · rcases hvel with hdown | habove
    · left
      have hmul : g.velocity.z * ((now2 - g.initialTime) * (bz_getBZDBInt db.shotSpeed : ℚ))
          ≤ g.velocity.z * ((now1 - g.initialTime) * (bz_getBZDBInt db.shotSpeed : ℚ)) :=
        mul_le_mul_of_nonpos_left hdist hdown
      nlinarith [hmul, hz]
    · by_cases hup : g.velocity.z ≤ 0
      · left
        have hmul : g.velocity.z * ((now2 - g.initialTime) * (bz_getBZDBInt db.shotSpeed : ℚ))
            ≤ g.velocity.z * ((now1 - g.initialTime) * (bz_getBZDBInt db.shotSpeed : ℚ)) :=
          mul_le_mul_of_nonpos_left hdist hup
        nlinarith [hmul, hz]
      · exfalso
        have hpos : 0 ≤ g.velocity.z
            * ((now1 - g.initialTime) * (bz_getBZDBInt db.shotSpeed : ℚ)) :=
          mul_nonneg (le_of_lt (not_le.mp hup)) hdist0
        nlinarith [hpos, hz, habove]
  · right
    exact le_trans hr hdist

/-- Witness for C8 (amended): the grenade with a downward velocity, at
elapsed times 1 and 2. -/
theorem isExpired_mono_witness :
    (0 : ℚ) ≤ stockDB.shotSpeed
      ∧ (fallenGrenade.velocity.z ≤ 0 ∨ 0 < fallenGrenade.origin.z)
      ∧ fallenGrenade.initialTime ≤ 1
      ∧ (1 : ℚ) ≤ 2
      ∧ fallenGrenade.isExpired stockDB 1 = true
      ∧ fallenGrenade.isExpired stockDB 2 = true := by
  have hspeed : (0 : ℚ) ≤ stockDB.shotSpeed := by simp [stockDB]
  have hvel : fallenGrenade.velocity.z ≤ 0 ∨ 0 < fallenGrenade.origin.z :=
    Or.inl (by simp [fallenGrenade])
  have hstart : fallenGrenade.initialTime ≤ 1 := by simp [fallenGrenade]
  have hexpired : fallenGrenade.isExpired stockDB 1 = true := by
    have h100 : bz_getBZDBInt (100 : ℚ) = 100 := bz_getBZDBInt_intCast 100
    simp [Grenade.isExpired, Grenade.calculatePosition, fallenGrenade, stockDB, h100]
  exact ⟨hspeed, hvel, hstart, by norm_num, hexpired,
    isExpired_mono fallenGrenade stockDB 1 2 hspeed hvel hstart (by norm_num) hexpired⟩

/-- C9. At elapsed time 0 (`now` equal to the launch time) `calculatePosition`
returns exactly the stored origin on all three axes, for every origin,
velocity and `_shotSpeed`. -/
theorem calculatePosition_at_launch (g : Grenade) (db : BZDB) :
    (g.calculatePosition db g.initialTime).x = g.origin.x
      ∧ (g.calculatePosition db g.initialTime).y = g.origin.y
      ∧ (g.calculatePosition db g.initialTime).z = g.origin.z
      ∧ g.calculatePosition db g.initialTime = g.origin := by
  simp [Grenade.calculatePosition]

/-- C10, evaluated at the failing input: the tracker holds no record for
player 3 (no join event was handled), player 3 holds the flag the handler
looks for and fires. The handler dereferences the null pointer that
`grenadeMap[3]` yields and faults; no shot is fired and no record is left
active. -/
theorem shotFired_without_record_faults :
    GrenadeMap.find [] 3 = none
      ∧ (stockHost 0).getPlayerByIndex 3 = some stockPlayer
      ∧ stockPlayer.currentFlag = handledFlag
      ∧ shotFiredEvent (stockHost 0) [] 3 = none
      ∧ shotFiredEvent (stockHost 0) (playerJoinEvent [] 5) 3 = none := by
  refine ⟨rfl, rfl, rfl, ?_, ?_⟩
  · simp [shotFiredEvent, stockHost, stockPlayer, handledFlag, GrenadeMap.index,
      GrenadeMap.find]
  · simp [shotFiredEvent, stockHost, stockPlayer, handledFlag, GrenadeMap.index,
      GrenadeMap.find, playerJoinEvent, GrenadeMap.assign]

/-! ## The death handler -/

/-- C11. For every death event: if the killing shot carries both a "type"
and an "owner" metadata entry and the type is "GN", the handler sets the
event's killer to the owner entry `Q` and the killer team to the current
team of `Q`, whatever killer the host reported, and changes nothing else; in
every other case (an entry missing, or a type other than "GN") the event is
left as it was. -/
theorem playerDie_rewrites_iff (h : Host) (s : ShotHost) (data : PlayerDieEventData) :
    ((s.shotHasMetaData (s.getShotGUID data.killerID data.shotID) "type" = true
          ∧ s.shotHasMetaData (s.getShotGUID data.killerID data.shotID) "owner" = true
          ∧ s.getShotMetaDataS (s.getShotGUID data.killerID data.shotID) "type" = "GN") →
        playerDieEvent h s data
          = { playerID := data.playerID
              killerID := s.getShotMetaDataI (s.getShotGUID data.killerID data.shotID) "owner"
              killerTeam := h.getPlayerTeam
                (s.getShotMetaDataI (s.getShotGUID data.killerID data.shotID) "owner")
              shotID := data.shotID })
      ∧ (¬ (s.shotHasMetaData (s.getShotGUID data.killerID data.shotID) "type" = true
          ∧ s.shotHasMetaData (s.getShotGUID data.killerID data.shotID) "owner" = true
          ∧ s.getShotMetaDataS (s.getShotGUID data.killerID data.shotID) "type" = "GN") →
        playerDieEvent h s data = data) := by
  constructor
  · rintro ⟨htype, howner, hgn⟩
    simp [playerDieEvent, htype, howner, hgn]
  · intro hnot
    unfold playerDieEvent
    by_cases htype : s.shotHasMetaData (s.getShotGUID data.killerID data.shotID) "type" = true
    · by_cases howner :
          s.shotHasMetaData (s.getShotGUID data.killerID data.shotID) "owner" = true
      · have hgn : ¬ s.getShotMetaDataS (s.getShotGUID data.killerID data.shotID) "type"
            = "GN" := fun hgn => hnot ⟨htype, howner, hgn⟩
        simp [htype, howner, hgn]
      · simp [htype, howner]
    · simp [htype]

/-- Witness for C11: player 2 dies from a blast that the host attributes to
player 5 and that is tagged for owner 3; and from an untagged shot. -/
theorem playerDie_rewrites_iff_witness :
    (stockShots.shotHasMetaData (stockShots.getShotGUID 5 9) "type" = true
        ∧ stockShots.shotHasMetaData (stockShots.getShotGUID 5 9) "owner" = true
        ∧ stockShots.getShotMetaDataS (stockShots.getShotGUID 5 9) "type" = "GN")
      ∧ playerDieEvent (stockHost 1) stockShots stockDeath
          = { playerID := 2, killerID := 3, killerTeam := 1, shotID := 9 }
      ∧ ¬ (stockShots.shotHasMetaData (stockShots.getShotGUID 5 8) "type" = true
        ∧ stockShots.shotHasMetaData (stockShots.getShotGUID 5 8) "owner" = true
        ∧ stockShots.getShotMetaDataS (stockShots.getShotGUID 5 8) "type" = "GN")
      ∧ playerDieEvent (stockHost 1) stockShots { stockDeath with shotID := 8 }
          = { stockDeath with shotID := 8 } := by
  have htag : stockShots.shotHasMetaData (stockShots.getShotGUID 5 9) "type" = true
        ∧ stockShots.shotHasMetaData (stockShots.getShotGUID 5 9) "owner" = true
        ∧ stockShots.getShotMetaDataS (stockShots.getShotGUID 5 9) "type" = "GN" := by
    simp [stockShots]
  have hplain : ¬ (stockShots.shotHasMetaData (stockShots.getShotGUID 5 8) "type" = true
        ∧ stockShots.shotHasMetaData (stockShots.getShotGUID 5 8) "owner" = true
        ∧ stockShots.getShotMetaDataS (stockShots.getShotGUID 5 8) "type" = "GN") := by
    simp [stockShots]
  refine ⟨htag, ?_, hplain, ?_⟩
  · have hrun := (playerDie_rewrites_iff (stockHost 1) stockShots stockDeath).1 htag
    rw [hrun]
    simp [stockShots, stockDeath, stockHost]
  · exact (playerDie_rewrites_iff (stockHost 1) stockShots { stockDeath with shotID := 8 }).2
      hplain

/-! ## More on the map: erasing, key order, counting -/

namespace GrenadeMap

theorem erase_nil (id : PlayerID) : erase [] id = [] := rfl

theorem erase_cons (k : PlayerID) (q : Option Grenade) (rest : GrenadeMap) (id : PlayerID) :
    erase ((k, q) :: rest) id = if k = id then erase rest id else (k, q) :: erase rest id := by
  by_cases hk : k = id <;> simp [erase, List.filter_cons, hk]

theorem find_erase_self (m : GrenadeMap) (id : PlayerID) : (m.erase id).find id = none := by
  induction m with
  | nil => simp [erase_nil, find]
  | cons e rest ih =>
    obtain ⟨k, q⟩ := e
    rw [erase_cons]
    by_cases hk : k = id
    · rw [if_pos hk]
      exact ih
    · rw [if_neg hk]
      simpa [find, hk] using ih

theorem find_erase_of_ne (m : GrenadeMap) {id other : PlayerID} (hne : other ≠ id) :
    (m.erase id).find other = m.find other := by
  induction m with
  | nil => simp [erase_nil, find]
  | cons e rest ih =>
    obtain ⟨k, q⟩ := e
    rw [erase_cons]
    by_cases hk : k = id
    · have hko : ¬ k = other := fun h => hne (h.symm.trans hk)
      rw [if_pos hk, ih]
      simp [find, hko]
    · rw [if_neg hk]
      by_cases hko : k = other
      · simp [find, hko]
      · simp [find, hko, ih]

theorem erase_of_absent {m : GrenadeMap} {id : PlayerID} (habsent : m.find id = none) :
    m.erase id = m := by
  induction m with
  | nil => rfl
  | cons e rest ih =>
    obtain ⟨k, q⟩ := e
    by_cases hk : k = id
    · simp [find, hk] at habsent
    · have hrest : find rest id = none := by simpa [find, hk] using habsent
      rw [erase_cons, if_neg hk, ih hrest]

theorem erase_assign_of_absent {m : GrenadeMap} {id : PlayerID} (p : Option Grenade)
    (habsent : m.find id = none) : (m.assign id p).erase id = m := by
  induction m with
  | nil => simp [assign, erase_cons, erase_nil]
  | cons e rest ih =>
    obtain ⟨k, q⟩ := e
    by_cases hk : k = id
    · simp [find, hk] at habsent
    · have hrest : find rest id = none := by simpa [find, hk] using habsent
      by_cases hlt : id < k
      · rw [assign, if_pos hlt, erase_cons, if_pos rfl, erase_cons, if_neg hk,
          erase_of_absent hrest]
      · rw [assign, if_neg hlt, if_neg hk, erase_cons, if_neg hk, ih hrest]

theorem mem_assign {m : GrenadeMap} {id : PlayerID} {p : Option Grenade}
    {e : PlayerID × Option Grenade} (hmem : e ∈ m.assign id p) : e ∈ m ∨ e = (id, p) := by
  induction m with
  | nil => simpa [assign] using hmem
  | cons a rest ih =>
    obtain ⟨k, q⟩ := a
    by_cases hlt : id < k
    · rw [assign, if_pos hlt] at hmem
      rcases List.mem_cons.mp hmem with h | h
      · exact Or.inr h
      · exact Or.inl h
    · by_cases hk : k = id
      · rw [assign, if_neg hlt, if_pos hk] at hmem
        rcases List.mem_cons.mp hmem with h | h
        · exact Or.inr h
        · exact Or.inl (List.mem_cons_of_mem _ h)
      · rw [assign, if_neg hlt, if_neg hk] at hmem
        rcases List.mem_cons.mp hmem with h | h
        · exact Or.inl (by simp [h])
        · rcases ih h with h2 | h2
          · exact Or.inl (List.mem_cons_of_mem _ h2)
          · exact Or.inr h2

theorem ordered_assign {m : GrenadeMap} (id : PlayerID) (p : Option Grenade)
    (hord : m.Ordered) : (m.assign id p).Ordered := by
  induction m with
  | nil => simp [assign, Ordered]
  | cons a rest ih =>
    obtain ⟨k, q⟩ := a
    simp only [Ordered, List.map_cons, List.pairwise_cons] at hord
    obtain ⟨hhead, htail⟩ := hord
    by_cases hlt : id < k
    · rw [assign, if_pos hlt]
      simp only [Ordered, List.map_cons, List.pairwise_cons]
      refine ⟨?_, hhead, htail⟩
      intro b hb
      rcases List.mem_cons.mp hb with h | h
      · simpa [h] using hlt
      · exact lt_trans hlt (hhead b h)
    · by_cases hk : k = id
      · rw [assign, if_neg hlt, if_pos hk]
        simp only [Ordered, List.map_cons, List.pairwise_cons]
        exact ⟨fun b hb => hk ▸ hhead b hb, htail⟩
      · rw [assign, if_neg hlt, if_neg hk]
        simp only [Ordered, List.map_cons, List.pairwise_cons]
        refine ⟨?_, ih htail⟩
        intro b hb
        obtain ⟨e, he, rfl⟩ := List.mem_map.mp hb
        rcases mem_assign he with h | h
        · exact hhead e.1 (List.mem_map.mpr ⟨e, h, rfl⟩)
        · rw [h]
          exact lt_of_le_of_ne (not_lt.mp hlt) hk

theorem ordered_erase {m : GrenadeMap} (id : PlayerID) (hord : m.Ordered) :
    (m.erase id).Ordered := by
  unfold Ordered at hord ⊢
  exact hord.sublist ((List.filter_sublist m).map Prod.fst)

theorem filter_key_of_ordered {m : GrenadeMap} (hord : m.Ordered) (P : PlayerID) :
    m.filter (fun e => decide (e.1 = P)) =
      match m.find P with
      | some p => [(P, p)]
      | none => [] := by
  induction m with
  | nil => simp [find]
  | cons a rest ih =>
    obtain ⟨k, q⟩ := a
    simp only [Ordered, List.map_cons, List.pairwise_cons] at hord
    obtain ⟨hhead, htail⟩ := hord
    by_cases hk : k = P
    · subst hk
      have hnone : rest.filter (fun e => decide (e.1 = k)) = [] := by
        rw [List.filter_eq_nil_iff]
        intro e he
        have hlt : k < e.1 := hhead e.1 (List.mem_map.mpr ⟨e, he, rfl⟩)
        simpa using (ne_of_lt hlt).symm
      simp [find, List.filter_cons, hnone]
    · have ih2 := ih htail
      simp [find, hk, List.filter_cons, ih2]

theorem recordCount_le_one {m : GrenadeMap} (hord : m.Ordered) (P : PlayerID) :
    m.recordCount P ≤ 1 := by
  unfold recordCount
  rw [filter_key_of_ordered hord P]
  cases m.find P <;> simp

theorem armedCount_le_recordCount (m : GrenadeMap) (P : PlayerID) :
    m.armedCount P ≤ m.recordCount P := by
  unfold armedCount recordCount
  induction m with
  | nil => simp
  | cons a rest ih =>
    by_cases hk : a.1 = P
    · by_cases harm : entryArmed a = true
      · simpa [List.filter_cons, hk, harm] using ih
      · simp only [List.filter_cons, hk, harm, decide_True, Bool.true_and, if_true]
        simp only [Bool.false_eq_true, if_false, List.length_cons]
        omega
    · simpa [List.filter_cons, hk] using ih

theorem armedCount_eq_zero_of_inactive {m : GrenadeMap} (hord : m.Ordered) {P : PlayerID}
    {g : Grenade} (hfind : m.find P = some (some g)) (hidle : g.isActive = false) :
    m.armedCount P = 0 := by
  have hfilter := filter_key_of_ordered hord P
  rw [hfind] at hfilter
  have hsplit : m.filter (fun e => decide (e.1 = P) && entryArmed e)
      = (m.filter (fun e => decide (e.1 = P))).filter entryArmed := by
    rw [List.filter_filter]
    congr 1
    funext e
    exact Bool.and_comm _ _
  unfold armedCount
  rw [hsplit, hfilter]
  simp [entryArmed, hidle]

end GrenadeMap

/-! ## The handlers, one event at a time -/

theorem playerPartEvent_eq_erase (m : GrenadeMap) (P : PlayerID) :
    playerPartEvent m P = m.erase P := by
  unfold playerPartEvent GrenadeMap.index
  cases hfind : m.find P with
  | none =>
    simp only
    rw [GrenadeMap.erase_assign_of_absent none hfind, GrenadeMap.erase_of_absent hfind]
  | some p => rfl

theorem shotFiredEvent_map_cases {h : Host} {m : GrenadeMap} {P : PlayerID}
    {r : GrenadeMap × List HostCall} (hrun : shotFiredEvent h m P = some r) :
    r.1 = m ∨ ∃ g g', m.find P = some (some g) ∧ r.1 = m.assign P (some g') := by
  unfold shotFiredEvent at hrun
  cases hplayer : h.getPlayerByIndex P with
  | none =>
    simp only [hplayer, Option.some.injEq] at hrun
    exact Or.inl (by rw [← hrun])
  | some playerRecord =>
    simp only [hplayer] at hrun
    by_cases hflag : playerRecord.currentFlag = handledFlag
    · simp only [hflag, if_true] at hrun
      cases hfind : m.find P with
      | none =>
        simp [GrenadeMap.index, hfind] at hrun
      | some p =>
        cases p with
        | none => simp [GrenadeMap.index, hfind] at hrun
        | some g =>
          simp only [GrenadeMap.index, hfind] at hrun
          right
          split_ifs at hrun
          all_goals
            simp only [Option.some.injEq] at hrun
            exact ⟨g, _, rfl, by rw [← hrun]⟩
    · simp only [hflag, if_false, Option.some.injEq] at hrun
      exact Or.inl (by rw [← hrun])

theorem shotFiredEvent_completes {h : Host} {m : GrenadeMap} {P : PlayerID} {g : Grenade}
    (hrec : m.find P = some (some g)) : ∃ r, shotFiredEvent h m P = some r := by
  unfold shotFiredEvent
  cases h.getPlayerByIndex P with
  | none => exact ⟨_, rfl⟩
  | some playerRecord =>
    simp only [GrenadeMap.index, hrec]
    split_ifs <;> exact ⟨_, rfl⟩

theorem shotFiredEvent_find_of_ne {h : Host} {m : GrenadeMap} {P Q : PlayerID}
    {r : GrenadeMap × List HostCall} (hrun : shotFiredEvent h m P = some r) (hne : Q ≠ P) :
    r.1.find Q = m.find Q := by
  rcases shotFiredEvent_map_cases hrun with hsame | ⟨g, g', -, hset⟩
  · rw [hsame]
  · rw [hset, GrenadeMap.find_assign_of_ne m _ hne]

theorem shotFiredEvent_ordered {h : Host} {m : GrenadeMap} {P : PlayerID}
    {r : GrenadeMap × List HostCall} (hrun : shotFiredEvent h m P = some r)
    (hord : m.Ordered) : r.1.Ordered := by
  rcases shotFiredEvent_map_cases hrun with hsame | ⟨g, g', -, hset⟩
  · rw [hsame]; exact hord
  · rw [hset]; exact GrenadeMap.ordered_assign P _ hord

theorem Event_ordered {h : Host} {s : ShotHost} {m : GrenadeMap} {e : EventData}
    {r : EventResult} (hrun : Event h s m e = some r) (hord : m.Ordered) :
    r.grenadeMap.Ordered := by
  cases e with
  | shotFired P =>
    simp only [Event] at hrun
    cases hfire : shotFiredEvent h m P with
    | none => simp [hfire] at hrun
    | some r0 =>
      simp only [hfire, Option.some.injEq] at hrun
      rw [← hrun]
      exact shotFiredEvent_ordered hfire hord
  | playerDie data =>
    simp only [Event, Option.some.injEq] at hrun
    rw [← hrun]; exact hord
  | playerJoin P =>
    simp only [Event, Option.some.injEq] at hrun
    rw [← hrun]; exact GrenadeMap.ordered_assign P _ hord
  | playerPart P =>
    simp only [Event, Option.some.injEq] at hrun
    rw [← hrun]
    simp only [playerPartEvent_eq_erase]
    exact GrenadeMap.ordered_erase P hord
  | other =>
    simp only [Event, Option.some.injEq] at hrun
    rw [← hrun]; exact hord

theorem run_ordered (steps : List Step) {m m' : GrenadeMap} (hrun : run m steps = some m')
    (hord : m.Ordered) : m'.Ordered := by
  induction steps generalizing m with
  | nil =>
    simp only [run, Option.some.injEq] at hrun
    rw [← hrun]; exact hord
  | cons st rest ih =>
    simp only [run] at hrun
    cases hev : Event st.host st.shots m st.eventData with
    | none => simp [hev] at hrun
    | some r =>
      simp only [hev] at hrun
      exact ih hrun (Event_ordered hev hord)

theorem run_append (steps more : List Step) (m : GrenadeMap) :
    run m (steps ++ more) = (run m steps).bind (fun m' => run m' more) := by
  induction steps generalizing m with
  | nil => simp [run]
  | cons st rest ih =>
    simp only [List.cons_append, run]
    cases Event st.host st.shots m st.eventData with
    | none => simp
    | some r => simp [ih]

/-! ## Sequences of events -/

theorem shotFiredEvent_detonate_map {h : Host} {m : GrenadeMap} {P : PlayerID}
    {playerRecord : BasePlayerRecord} {g : Grenade}
    (hplayer : h.getPlayerByIndex P = some playerRecord)
    (hflag : playerRecord.currentFlag = handledFlag)
    (hrec : m.find P = some (some g))
    (hactive : g.isActive = true)
    (hfresh : g.isExpired h.db h.currentTime = false) :
    ∃ calls, shotFiredEvent h m P = some (m.assign P (some g.clear), calls) := by
  simp [shotFiredEvent, hplayer, hflag, GrenadeMap.index_of_find hrec, hactive, hfresh]

theorem run_completes (steps : List Step) (joined : List PlayerID) (m : GrenadeMap)
    (htrack : ∀ P, joined.contains P = true → ∃ g, m.find P = some (some g))
    (hwf : firesAfterJoin joined steps = true) : ∃ m', run m steps = some m' := by
  induction steps generalizing joined m with
  | nil => exact ⟨m, rfl⟩
  | cons st rest ih =>
    obtain ⟨h, s, e⟩ := st
    cases e with
    | shotFired P =>
      simp only [firesAfterJoin, Bool.and_eq_true] at hwf
      obtain ⟨g, hg⟩ := htrack P hwf.1
      obtain ⟨r, hr⟩ := shotFiredEvent_completes (h := h) hg
      have htrack2 : ∀ Q, joined.contains Q = true → ∃ g, r.1.find Q = some (some g) := by
        intro Q hQ
        rcases shotFiredEvent_map_cases hr with hsame | ⟨g0, g1, -, hset⟩
        · rw [hsame]; exact htrack Q hQ
        · by_cases hQP : Q = P
          · rw [hset, hQP, GrenadeMap.find_assign_self]; exact ⟨g1, rfl⟩
          · rw [hset, GrenadeMap.find_assign_of_ne m _ hQP]; exact htrack Q hQ
      obtain ⟨m', hm'⟩ := ih joined r.1 htrack2 hwf.2
      exact ⟨m', by simp [run, Event, hr, hm']⟩
    | playerDie data =>
      simp only [firesAfterJoin] at hwf
      obtain ⟨m', hm'⟩ := ih joined m htrack hwf
      exact ⟨m', by simp [run, Event, hm']⟩
    | playerJoin P =>
      simp only [firesAfterJoin] at hwf
      have htrack2 : ∀ Q, (P :: joined).contains Q = true →
          ∃ g, (playerJoinEvent m P).find Q = some (some g) := by
        intro Q hQ
        unfold playerJoinEvent
        by_cases hQP : Q = P
        · rw [hQP, GrenadeMap.find_assign_self]; exact ⟨_, rfl⟩
        · rw [GrenadeMap.find_assign_of_ne m _ hQP]
          apply htrack Q
          simp only [List.contains_eq_any_beq, List.any_eq_true, beq_iff_eq,
            List.mem_cons] at hQ ⊢
          obtain ⟨x, hx, hxQ⟩ := hQ
          rcases hx with hx | hx
          · exact absurd (hxQ.trans hx) hQP
          · exact ⟨x, hx, hxQ⟩
      obtain ⟨m', hm'⟩ := ih (P :: joined) _ htrack2 hwf
      exact ⟨m', by simp [run, Event, hm']⟩
    | playerPart P =>
      simp only [firesAfterJoin] at hwf
      have htrack2 : ∀ Q, (joined.filter (fun q => q ≠ P)).contains Q = true →
          ∃ g, (playerPartEvent m P).find Q = some (some g) := by
        intro Q hQ
        simp only [List.contains_eq_any_beq, List.any_eq_true, beq_iff_eq,
          List.mem_filter, decide_eq_true_eq] at hQ
        obtain ⟨x, ⟨hx, hxP⟩, hxQ⟩ := hQ
        have hQP : Q ≠ P := hxQ ▸ hxP
        rw [playerPartEvent_eq_erase, GrenadeMap.find_erase_of_ne m hQP]
        apply htrack Q
        simp only [List.contains_eq_any_beq, List.any_eq_true, beq_iff_eq]
        exact ⟨x, hx, hxQ⟩
      obtain ⟨m', hm'⟩ := ih _ _ htrack2 hwf
      exact ⟨m', by simp [run, Event, hm']⟩
    | other =>
      simp only [firesAfterJoin] at hwf
      obtain ⟨m', hm'⟩ := ih joined m htrack hwf
      exact ⟨m', by simp [run, Event, hm']⟩

/-- C12. Start from the empty tracker and let the host deliver any finite
sequence of join, part, fire, death and other events. If a join precedes
every fire event of a player, every handler completes. In every state so
reached each player has at most one grenade record and at most one active
grenade; and a fire event handled while the player's record is active and
not expired leaves that player with one record, which is inactive. -/
theorem run_one_record_per_player (steps : List Step) :
    (firesAfterJoin [] steps = true → ∃ m, run [] steps = some m)
      ∧ ∀ m, run [] steps = some m →
          (∀ P, m.recordCount P ≤ 1)
            ∧ (∀ P, m.armedCount P ≤ 1)
            ∧ ∀ (h : Host) (s : ShotHost) (P : PlayerID) (playerRecord : BasePlayerRecord)
                (g : Grenade),
                h.getPlayerByIndex P = some playerRecord →
                playerRecord.currentFlag = handledFlag →
                m.find P = some (some g) →
                g.isActive = true →
                g.isExpired h.db h.currentTime = false →
                ∃ m', run [] (steps ++ [⟨h, s, EventData.shotFired P⟩]) = some m'
                  ∧ m'.find P = some (some g.clear)
                  ∧ m'.recordCount P ≤ 1
                  ∧ m'.armedCount P = 0 := by
  have hempty : GrenadeMap.Ordered [] := by simp [GrenadeMap.Ordered]
  refine ⟨fun hwf => run_completes steps [] [] (fun P hP => by simp at hP) hwf, ?_⟩
  intro m hrun
  have hord : m.Ordered := run_ordered steps hrun hempty
  refine ⟨fun P => GrenadeMap.recordCount_le_one hord P,
    fun P => le_trans (GrenadeMap.armedCount_le_recordCount m P)
      (GrenadeMap.recordCount_le_one hord P), ?_⟩
  intro h s P playerRecord g hplayer hflag hrec hactive hfresh
  obtain ⟨calls, hfire⟩ := shotFiredEvent_detonate_map hplayer hflag hrec hactive hfresh
  have hord2 : (m.assign P (some g.clear)).Ordered := GrenadeMap.ordered_assign P _ hord
  refine ⟨m.assign P (some g.clear), ?_, GrenadeMap.find_assign_self m P _,
    GrenadeMap.recordCount_le_one hord2 P,
    GrenadeMap.armedCount_eq_zero_of_inactive hord2 (GrenadeMap.find_assign_self m P _) rfl⟩
  rw [run_append, hrun]
  simp [run, Event, hfire]

/-- Witness for C12: the stock player joins, launches at time 0 and
detonates at time 1. -/
theorem run_one_record_per_player_witness :
    firesAfterJoin [] stockSteps = true
      ∧ run [] stockSteps = some [(3, some flyingGrenade)]
      ∧ GrenadeMap.recordCount [(3, some flyingGrenade)] 3 ≤ 1
      ∧ GrenadeMap.armedCount [(3, some flyingGrenade)] 3 ≤ 1
      ∧ ∃ m', run [] (stockSteps ++ [⟨stockHost 1, stockShots, EventData.shotFired 3⟩])
            = some m'
          ∧ m'.find 3 = some (some flyingGrenade.clear)
          ∧ m'.recordCount 3 ≤ 1
          ∧ m'.armedCount 3 = 0 := by
  have hwf : firesAfterJoin [] stockSteps = true := by
    simp [firesAfterJoin, stockSteps]
  have hrun : run [] stockSteps = some [(3, some flyingGrenade)] := by
    simp [run, Event, stockSteps, playerJoinEvent, GrenadeMap.assign, shotFiredEvent,
      GrenadeMap.index, GrenadeMap.find, stockHost, stockPlayer, handledFlag, Grenade.new,
      Grenade.isActive, Grenade.init, launchPos, launchVel, launchInnacuracy, randomFloat,
      stockDB, flyingGrenade]
  have hfresh : flyingGrenade.isExpired (stockHost 1).db (stockHost 1).currentTime = false := by
    have h100 : bz_getBZDBInt (100 : ℚ) = 100 := bz_getBZDBInt_intCast 100
    have h350 : bz_getBZDBInt (350 : ℚ) = 350 := bz_getBZDBInt_intCast 350
    simp [Grenade.isExpired, Grenade.calculatePosition, flyingGrenade, stockHost, stockDB,
      h100, h350]
    norm_num
  obtain ⟨hcount, harmed, hfire⟩ :=
    (run_one_record_per_player stockSteps).2 [(3, some flyingGrenade)] hrun
  exact ⟨hwf, hrun, hcount 3, harmed 3,
    hfire (stockHost 1) stockShots 3 stockPlayer flyingGrenade rfl rfl
      (by simp [GrenadeMap.find]) rfl hfresh⟩

/-! ## The scenarios -/

/-- C13 (Scenario 1). For every `muzzleFront`, `muzzleHeight`, `grenadeWidth`
and `grenadeSpeedAdVel` and every random draw: with `grenadeAccuracy` 0,
vertical-velocity inheritance off, the shooter at (0,0,0) with heading 0
(where `cos` is 1 and `sin` is 0) and an inactive record, a fire event that
passes the flag check makes exactly two host calls, "PZ" shots at
`(muzzleFront, +grenadeWidth, muzzleHeight)` and
`(muzzleFront, -grenadeWidth, muzzleHeight)`, both with velocity
`(grenadeSpeedAdVel, 0, 0)`, and leaves the player's record active. -/
theorem scenario1_launch (h : Host) (m : GrenadeMap) (P : PlayerID)
    (playerRecord : BasePlayerRecord) (g : Grenade)
    (hplayer : h.getPlayerByIndex P = some playerRecord)
    (hflag : playerRecord.currentFlag = handledFlag)
    (hrec : m.find P = some (some g))
    (hinactive : g.isActive = false)
    (hacc : h.db.grenadeAccuracy = 0)
    (hvert : h.db.grenadeVerticalVelocity = false)
    (hpos : playerRecord.lastKnownState.pos = ⟨0, 0, 0⟩)
    (hrot : playerRecord.lastKnownState.rotation = 0)
    (hcos : h.cos 0 = 1) (hsin : h.sin 0 = 0) :
    ∃ stored : Grenade,
      shotFiredEvent h m P
        = some (m.assign P (some stored),
            [HostCall.fireServerShot "PZ"
               ⟨h.db.muzzleFront, h.db.grenadeWidth, h.db.muzzleHeight⟩
               ⟨h.db.grenadeSpeedAdVel, 0, 0⟩ (h.getPlayerTeam P),
             HostCall.fireServerShot "PZ"
               ⟨h.db.muzzleFront, -h.db.grenadeWidth, h.db.muzzleHeight⟩
               ⟨h.db.grenadeSpeedAdVel, 0, 0⟩ (h.getPlayerTeam P)])
      ∧ (m.assign P (some stored)).find P = some (some stored)
      ∧ stored.isActive = true
      ∧ stored.origin = ⟨h.db.muzzleFront, 0, h.db.muzzleHeight⟩
      ∧ stored.velocity = ⟨h.db.grenadeSpeedAdVel, 0, 0⟩
      ∧ stored.initialTime = h.currentTime := by
  have hin : launchInnacuracy h = 0 := by simp [launchInnacuracy, randomFloat, hacc]
  have hvel : launchVel h playerRecord = ⟨h.db.grenadeSpeedAdVel, 0, 0⟩ := by
    simp [launchVel, hin, hrot, hvert, hcos, hsin]
  have hcentre : launchPos h playerRecord = ⟨h.db.muzzleFront, 0, h.db.muzzleHeight⟩ := by
    simp [launchPos, hpos, hrot, hcos, hsin]
  have hp1 : launchPos1 h playerRecord
      = ⟨h.db.muzzleFront, h.db.grenadeWidth, h.db.muzzleHeight⟩ := by
    simp [launchPos1, launchOffset, hcentre, hrot, hcos, hsin]
  have hp2 : launchPos2 h playerRecord
      = ⟨h.db.muzzleFront, -h.db.grenadeWidth, h.db.muzzleHeight⟩ := by
    simp [launchPos2, launchOffset, hcentre, hrot, hcos, hsin]
  have hrun := shotFired_launch_of_inactive h m P playerRecord g hplayer hflag hrec
    (fun hact => by rw [hinactive] at hact; cases hact)
  rw [hvel, hcentre, hp1, hp2] at hrun
  exact ⟨_, hrun, GrenadeMap.find_assign_self m P _, rfl, rfl, rfl, rfl⟩

/-- Witness for C13: the stock shooter, just joined, fires at time 0. -/
theorem scenario1_launch_witness :
    (stockHost 0).getPlayerByIndex 3 = some stockPlayer
      ∧ stockPlayer.currentFlag = handledFlag
      ∧ GrenadeMap.find [(3, some Grenade.new)] 3 = some (some Grenade.new)
      ∧ Grenade.new.isActive = false
      ∧ (stockHost 0).db.grenadeAccuracy = 0
      ∧ (stockHost 0).db.grenadeVerticalVelocity = false
      ∧ stockPlayer.lastKnownState.pos = ⟨0, 0, 0⟩
      ∧ stockPlayer.lastKnownState.rotation = 0
      ∧ (stockHost 0).cos 0 = 1
      ∧ (stockHost 0).sin 0 = 0
      ∧ ∃ stored : Grenade,
          shotFiredEvent (stockHost 0) [(3, some Grenade.new)] 3
            = some ([(3, some stored)],
                [HostCall.fireServerShot "PZ" ⟨4, 2, 1⟩ ⟨4, 0, 0⟩ 1,
                 HostCall.fireServerShot "PZ" ⟨4, -2, 1⟩ ⟨4, 0, 0⟩ 1])
          ∧ stored.isActive = true := by
  obtain ⟨stored, hrun, -, hact, -⟩ :=
    scenario1_launch (stockHost 0) [(3, some Grenade.new)] 3 stockPlayer Grenade.new
      rfl rfl (by simp [GrenadeMap.find]) rfl rfl rfl rfl rfl rfl rfl
  refine ⟨rfl, rfl, by simp [GrenadeMap.find], rfl, rfl, rfl, rfl, rfl, rfl, rfl,
    stored, ?_, hact⟩
  rw [hrun]
  simp [GrenadeMap.assign, stockHost, stockDB]

/-- C14 (Scenario 2), evaluated at the failing input: the stock scenario with
`_shotSpeed` set to 100.5. The launch of Scenario 1 stores the centre
(4,0,1) and velocity (4,0,0); one second later the grenade is not expired
and the blast is fired at x = 404, not at
`muzzleFront + grenadeSpeedAdVel * shotSpeed` = 406. -/
theorem scenario2_blast_truncates :
    shotFiredEvent { stockHost 0 with db := fractionalDB } [(3, some Grenade.new)] 3
        = some ([(3, some flyingGrenade)],
            [HostCall.fireServerShot "PZ" ⟨4, 2, 1⟩ ⟨4, 0, 0⟩ 1,
             HostCall.fireServerShot "PZ" ⟨4, -2, 1⟩ ⟨4, 0, 0⟩ 1])
      ∧ 0 < fractionalDB.muzzleHeight
      ∧ fractionalDB.shotSpeed * 1 < fractionalDB.shotRange
      ∧ shotFiredEvent { stockHost 1 with db := fractionalDB } [(3, some flyingGrenade)] 3
        = some ([(3, some flyingGrenade.clear)],
            [HostCall.fireServerShot "SW" ⟨404, 0, 1⟩ ⟨0, 0, 0⟩ 1,
             HostCall.setShotMetaData 7 "type" (MetaData.str "GN"),
             HostCall.setShotMetaData 7 "owner" (MetaData.uint 3)])
      ∧ fractionalDB.muzzleFront + fractionalDB.grenadeSpeedAdVel * fractionalDB.shotSpeed
          = 406 := by
  have htrunc : bz_getBZDBInt (100.5 : ℚ) = 100 := by
    norm_num [bz_getBZDBInt, Int.floor_eq_iff]
  have h350 : bz_getBZDBInt (350 : ℚ) = 350 := bz_getBZDBInt_intCast 350
  refine ⟨?_, ?_, ?_, ?_, ?_⟩
  · simp [shotFiredEvent, GrenadeMap.index, GrenadeMap.find, GrenadeMap.assign, stockHost,
      stockPlayer, handledFlag, Grenade.new, Grenade.isActive, Grenade.init, launchPos,
      launchPos1, launchPos2, launchOffset, launchVel, launchInnacuracy, randomFloat,
      fractionalDB, stockDB, flyingGrenade]
  · simp [fractionalDB, stockDB]
  · norm_num [fractionalDB, stockDB]
  · simp [shotFiredEvent, GrenadeMap.index, GrenadeMap.find, GrenadeMap.assign, stockHost,
      stockPlayer, handledFlag, Grenade.isActive, Grenade.isExpired, Grenade.calculatePosition,
      Grenade.clear, fractionalDB, stockDB, flyingGrenade, htrunc, h350]
    norm_num
  · norm_num [fractionalDB, stockDB]

/-! ## Round trip of launch and detonation -/

theorem abs_mul_lt_of_small {a b e ε : ℚ} (hab : |a| ≤ b) (he0 : 0 ≤ e)
    (he : e < ε / (b + 1)) : |a * e| < ε := by
  have hb0 : 0 ≤ b := le_trans (abs_nonneg a) hab
  have hb1 : 0 < b + 1 := by linarith
  have hlt : e * (b + 1) < ε := (lt_div_iff₀ hb1).mp he
  rw [abs_mul, abs_of_nonneg he0]
  have hle : |a| * e ≤ b * e := mul_le_mul_of_nonneg_right hab he0
  by_cases hzero : e = 0
  · rw [hzero] at hlt ⊢
    simpa using hlt
  · have hpos : 0 < e := lt_of_le_of_ne he0 (Ne.symm hzero)
    nlinarith [hle, hlt, hpos]

theorem calculatePosition_init (g0 : Grenade) (O V : Vec3) (T : ℚ) (db : BZDB) (now : ℚ) :
    (g0.init O V T).calculatePosition db now
      = ⟨O.x + V.x * (now - T) * (bz_getBZDBInt db.shotSpeed : ℚ),
         O.y + V.y * (now - T) * (bz_getBZDBInt db.shotSpeed : ℚ),
         O.z + V.z * (now - T) * (bz_getBZDBInt db.shotSpeed : ℚ)⟩ := by
  simp [Grenade.calculatePosition, Grenade.init]

/-- Round trip of launch and detonation as the code computes it. After
`init(O, V)` at time `T`,
a fire event that passes the flag check at time `T + e`, with the record not
expired, fires its blast at `O + V * e * shotSpeed` on each axis (`shotSpeed`
as the code reads it with `bz_getBZDBInt`), hence exactly at `O` when `e` is
0; and that difference tends to 0 with `e`: for every bound `ε > 0` there is
a `δ > 0` such that for `0 <= e < δ` the position `calculatePosition` reports
lies within `ε` of `O` on each axis. -/
theorem roundTrip_detonation (h : Host) (m : GrenadeMap) (P : PlayerID)
    (playerRecord : BasePlayerRecord) (g0 : Grenade) (O V : Vec3) (T : ℚ)
    (hplayer : h.getPlayerByIndex P = some playerRecord)
    (hflag : playerRecord.currentFlag = handledFlag)
    (hrec : m.find P = some (some (g0.init O V T)))
    (hfresh : (g0.init O V T).isExpired h.db h.currentTime = false) :
    shotFiredEvent h m P
        = some (m.assign P (some (g0.init O V T).clear),
            [HostCall.fireServerShot "SW"
               ⟨O.x + V.x * (h.currentTime - T) * (bz_getBZDBInt h.db.shotSpeed : ℚ),
                O.y + V.y * (h.currentTime - T) * (bz_getBZDBInt h.db.shotSpeed : ℚ),
                O.z + V.z * (h.currentTime - T) * (bz_getBZDBInt h.db.shotSpeed : ℚ)⟩
               ⟨0, 0, 0⟩ (h.getPlayerTeam P),
             HostCall.setShotMetaData h.shotGUID "type" (MetaData.str "GN"),
             HostCall.setShotMetaData h.shotGUID "owner" (MetaData.uint P)])
      ∧ (h.currentTime = T →
          shotFiredEvent h m P
            = some (m.assign P (some (g0.init O V T).clear),
                [HostCall.fireServerShot "SW" O ⟨0, 0, 0⟩ (h.getPlayerTeam P),
                 HostCall.setShotMetaData h.shotGUID "type" (MetaData.str "GN"),
                 HostCall.setShotMetaData h.shotGUID "owner" (MetaData.uint P)]))
      ∧ ∀ ε : ℚ, 0 < ε → ∃ δ : ℚ, 0 < δ ∧ ∀ now : ℚ, T ≤ now → now - T < δ →
          |((g0.init O V T).calculatePosition h.db now).x - O.x| < ε
            ∧ |((g0.init O V T).calculatePosition h.db now).y - O.y| < ε
            ∧ |((g0.init O V T).calculatePosition h.db now).z - O.z| < ε := by
  have hrun : shotFiredEvent h m P
        = some (m.assign P (some (g0.init O V T).clear),
            [HostCall.fireServerShot "SW"
               ⟨O.x + V.x * (h.currentTime - T) * (bz_getBZDBInt h.db.shotSpeed : ℚ),
                O.y + V.y * (h.currentTime - T) * (bz_getBZDBInt h.db.shotSpeed : ℚ),
                O.z + V.z * (h.currentTime - T) * (bz_getBZDBInt h.db.shotSpeed : ℚ)⟩
               ⟨0, 0, 0⟩ (h.getPlayerTeam P),
             HostCall.setShotMetaData h.shotGUID "type" (MetaData.str "GN"),
             HostCall.setShotMetaData h.shotGUID "owner" (MetaData.uint P)]) := by
    have hactive : (g0.init O V T).isActive = true := rfl
    simp [shotFiredEvent, hplayer, hflag, GrenadeMap.index_of_find hrec, hactive, hfresh,
      calculatePosition_init]
  refine ⟨hrun, ?_, ?_⟩
  · intro hnow
    rw [hrun, hnow]
    simp
  · intro ε hε
    have hs0 : 0 ≤ |(bz_getBZDBInt h.db.shotSpeed : ℚ)| := abs_nonneg _
    have hb0 : 0 ≤ (|V.x| + |V.y| + |V.z|) * |(bz_getBZDBInt h.db.shotSpeed : ℚ)| :=
      mul_nonneg (by positivity) hs0
    refine ⟨ε / ((|V.x| + |V.y| + |V.z|) * |(bz_getBZDBInt h.db.shotSpeed : ℚ)| + 1),
      div_pos hε (by linarith), ?_⟩
    intro now hstart hnear
    have he0 : 0 ≤ now - T := by linarith
    rw [calculatePosition_init]
    have key : ∀ v : ℚ, |v| ≤ |V.x| + |V.y| + |V.z| →
        |(0 : ℚ) + v * (now - T) * (bz_getBZDBInt h.db.shotSpeed : ℚ)| < ε := by
      intro v hv
      have hvs : |v * (bz_getBZDBInt h.db.shotSpeed : ℚ)|
          ≤ (|V.x| + |V.y| + |V.z|) * |(bz_getBZDBInt h.db.shotSpeed : ℚ)| := by
        rw [abs_mul]
        exact mul_le_mul_of_nonneg_right hv hs0
      have := abs_mul_lt_of_small hvs he0 hnear
      have heq : (0 : ℚ) + v * (now - T) * (bz_getBZDBInt h.db.shotSpeed : ℚ)
          = v * (bz_getBZDBInt h.db.shotSpeed : ℚ) * (now - T) := by ring
      rw [heq]
      exact this
    have hx : |V.x| ≤ |V.x| + |V.y| + |V.z| := by
      have := abs_nonneg V.y; have := abs_nonneg V.z; linarith
    have hy : |V.y| ≤ |V.x| + |V.y| + |V.z| := by
      have := abs_nonneg V.x; have := abs_nonneg V.z; linarith
    have hz : |V.z| ≤ |V.x| + |V.y| + |V.z| := by
      have := abs_nonneg V.x; have := abs_nonneg V.y; linarith
    refine ⟨?_, ?_, ?_⟩
    · have := key V.x hx
      simpa [add_sub_cancel_left] using this
    · have := key V.y hy
      simpa [add_sub_cancel_left] using this
    · have := key V.z hz
      simpa [add_sub_cancel_left] using this

/-- The round trip at a concrete input: the stock grenade, initialised at
time 0, is detonated at the same instant. -/
theorem roundTrip_detonation_witness :
    (stockHost 0).getPlayerByIndex 3 = some stockPlayer
      ∧ stockPlayer.currentFlag = handledFlag
      ∧ GrenadeMap.find [(3, some (Grenade.new.init ⟨4, 0, 1⟩ ⟨4, 0, 0⟩ 0))] 3
          = some (some (Grenade.new.init ⟨4, 0, 1⟩ ⟨4, 0, 0⟩ 0))
      ∧ (Grenade.new.init ⟨4, 0, 1⟩ ⟨4, 0, 0⟩ 0).isExpired (stockHost 0).db
          (stockHost 0).currentTime = false
      ∧ (stockHost 0).currentTime = 0
      ∧ shotFiredEvent (stockHost 0) [(3, some (Grenade.new.init ⟨4, 0, 1⟩ ⟨4, 0, 0⟩ 0))] 3
          = some ([(3, some (Grenade.new.init ⟨4, 0, 1⟩ ⟨4, 0, 0⟩ 0).clear)],
              [HostCall.fireServerShot "SW" ⟨4, 0, 1⟩ ⟨0, 0, 0⟩ 1,
               HostCall.setShotMetaData 7 "type" (MetaData.str "GN"),
               HostCall.setShotMetaData 7 "owner" (MetaData.uint 3)]) := by
  have hfresh : (Grenade.new.init ⟨4, 0, 1⟩ ⟨4, 0, 0⟩ 0).isExpired (stockHost 0).db
      (stockHost 0).currentTime = false := by
    have h350 : bz_getBZDBInt (350 : ℚ) = 350 := bz_getBZDBInt_intCast 350
    simp [Grenade.isExpired, Grenade.calculatePosition, Grenade.init, stockHost, stockDB, h350]
  have hrun := (roundTrip_detonation (stockHost 0)
    [(3, some (Grenade.new.init ⟨4, 0, 1⟩ ⟨4, 0, 0⟩ 0))] 3 stockPlayer Grenade.new
    ⟨4, 0, 1⟩ ⟨4, 0, 0⟩ 0 rfl rfl (by simp [GrenadeMap.find]) hfresh).2.1 rfl
  refine ⟨rfl, rfl, by simp [GrenadeMap.find], hfresh, rfl, ?_⟩
  rw [hrun]
  simp [GrenadeMap.assign, stockHost]

/-! ## Join and part -/

/-- C16 (Scenario 4). For every tracker state in which the record of player
`P` is active: a part event for `P` removes the record of `P`; a join event
for `P` after it gives `P` a record that is inactive and is not the earlier
grenade; and the next fire event of `P` that passes the flag check is a
launch (two "PZ" shots, no "SW" shot) from this event's centre position. -/
theorem part_then_join_starts_unarmed (h : Host) (m : GrenadeMap) (P : PlayerID)
    (playerRecord : BasePlayerRecord) (g : Grenade)
    (hrec : m.find P = some (some g))
    (hactive : g.isActive = true)
    (hplayer : h.getPlayerByIndex P = some playerRecord)
    (hflag : playerRecord.currentFlag = handledFlag) :
    (playerPartEvent m P).find P = none
      ∧ (playerPartEvent m P).find P ≠ m.find P
      ∧ (playerJoinEvent (playerPartEvent m P) P).find P = some (some Grenade.new)
      ∧ Grenade.new.isActive = false
      ∧ Grenade.new ≠ g
      ∧ shotFiredEvent h (playerJoinEvent (playerPartEvent m P) P) P
          = some ((playerJoinEvent (playerPartEvent m P) P).assign P (some
                { active := true, origin := launchPos h playerRecord,
                  velocity := launchVel h playerRecord, initialTime := h.currentTime }),
              [HostCall.fireServerShot "PZ" (launchPos1 h playerRecord)
                 (launchVel h playerRecord) (h.getPlayerTeam P),
               HostCall.fireServerShot "PZ" (launchPos2 h playerRecord)
                 (launchVel h playerRecord) (h.getPlayerTeam P)]) := by
  have hgone : (playerPartEvent m P).find P = none := by
    rw [playerPartEvent_eq_erase]
    exact GrenadeMap.find_erase_self m P
  have hnew : (playerJoinEvent (playerPartEvent m P) P).find P = some (some Grenade.new) :=
    GrenadeMap.find_assign_self _ P _
  refine ⟨hgone, ?_, hnew, rfl, ?_, ?_⟩
  · rw [hgone, hrec]
    simp
  · intro heq
    rw [← heq] at hactive
    cases hactive
  · exact shotFired_launch_of_inactive h _ P playerRecord Grenade.new hplayer hflag hnew
      (fun hact => by cases hact)

/-- Witness for C16: the stock player parts with a grenade in flight, joins
again and fires at time 1. -/
theorem part_then_join_starts_unarmed_witness :
    GrenadeMap.find [(3, some flyingGrenade)] 3 = some (some flyingGrenade)
      ∧ flyingGrenade.isActive = true
      ∧ (stockHost 1).getPlayerByIndex 3 = some stockPlayer
      ∧ stockPlayer.currentFlag = handledFlag
      ∧ playerPartEvent [(3, some flyingGrenade)] 3 = []
      ∧ playerJoinEvent (playerPartEvent [(3, some flyingGrenade)] 3) 3
          = [(3, some Grenade.new)]
      ∧ shotFiredEvent (stockHost 1)
            (playerJoinEvent (playerPartEvent [(3, some flyingGrenade)] 3) 3) 3
          = some ([(3, some { active := true, origin := ⟨4, 0, 1⟩, velocity := ⟨4, 0, 0⟩,
                              initialTime := 1 })],
              [HostCall.fireServerShot "PZ" ⟨4, 2, 1⟩ ⟨4, 0, 0⟩ 1,
               HostCall.fireServerShot "PZ" ⟨4, -2, 1⟩ ⟨4, 0, 0⟩ 1]) := by
  have hpart : playerPartEvent [(3, some flyingGrenade)] 3 = [] := by
    simp [playerPartEvent, GrenadeMap.index, GrenadeMap.find, GrenadeMap.erase]
  have hjoin : playerJoinEvent (playerPartEvent [(3, some flyingGrenade)] 3) 3
      = [(3, some Grenade.new)] := by
    rw [hpart]
    simp [playerJoinEvent, GrenadeMap.assign]
  have hrun := (part_then_join_starts_unarmed (stockHost 1) [(3, some flyingGrenade)] 3
    stockPlayer flyingGrenade (by simp [GrenadeMap.find]) rfl rfl rfl).2.2.2.2.2
  refine ⟨by simp [GrenadeMap.find], rfl, rfl, rfl, hpart, hjoin, ?_⟩
  rw [hrun, hjoin]
  simp [GrenadeMap.assign, launchPos1, launchPos2, launchPos, launchOffset, launchVel,
    launchInnacuracy, randomFloat, stockHost, stockDB, stockPlayer]

/-- C17. For every tracker state and every player `P` with no entry in it, a
part event for `P` completes and leaves the map equal to the map before (no
entry for `P`, every other entry as it was); and in every tracker state a
second part event for `P` gives the same map as the first. -/
theorem part_without_record_is_noop (h : Host) (s : ShotHost) (m : GrenadeMap)
    (P : PlayerID) (habsent : m.find P = none) :
    Event h s m (EventData.playerPart P) = some ⟨m, [], EventData.playerPart P⟩
      ∧ playerPartEvent m P = m
      ∧ (playerPartEvent m P).find P = none
      ∧ (∀ Q, (playerPartEvent m P).find Q = m.find Q)
      ∧ ∀ m0 : GrenadeMap,
          playerPartEvent (playerPartEvent m0 P) P = playerPartEvent m0 P := by
  have hsame : playerPartEvent m P = m := by
    rw [playerPartEvent_eq_erase, GrenadeMap.erase_of_absent habsent]
  refine ⟨by simp [Event, hsame], hsame, by rw [hsame, habsent], fun Q => by rw [hsame], ?_⟩
  intro m0
  rw [playerPartEvent_eq_erase, playerPartEvent_eq_erase,
    GrenadeMap.erase_of_absent (GrenadeMap.find_erase_self m0 P)]

/-- Witness for C17: player 3 parts from a tracker that only holds player 5;
and player 3 parts twice from a tracker that holds both. -/
theorem part_without_record_is_noop_witness :
    GrenadeMap.find [(5, some Grenade.new)] 3 = none
      ∧ playerPartEvent [(5, some Grenade.new)] 3 = [(5, some Grenade.new)]
      ∧ playerPartEvent
          (playerPartEvent [(3, some flyingGrenade), (5, some Grenade.new)] 3) 3
          = playerPartEvent [(3, some flyingGrenade), (5, some Grenade.new)] 3 := by
  have habsent : GrenadeMap.find [(5, some Grenade.new)] 3 = none := by
    simp [GrenadeMap.find]
  have hnoop := part_without_record_is_noop (stockHost 0) stockShots
    [(5, some Grenade.new)] 3 habsent
  exact ⟨habsent, hnoop.2.1, hnoop.2.2.2.2 _⟩

/-! ## Side-shot placement -/

/-- C18. For every shooter position, heading `r` and configuration, a launch
fires its two "PZ" shots at `centre + d` and `centre - d` with
`d = grenadeWidth * (-sin r, cos r, 0)` and with one and the same velocity:
the midpoint of the two shots is the centre, `d` is orthogonal to the heading
direction `(cos r, sin r, 0)`, both shots are at the centre's height, and,
`cos` and `sin` satisfying `cos² + sin² = 1` at `r`, each shot lies at
horizontal distance `|grenadeWidth|` from the centre (stated on squares). -/
theorem side_shots_symmetric (h : Host) (m : GrenadeMap) (P : PlayerID)
    (playerRecord : BasePlayerRecord) (g : Grenade)
    (hplayer : h.getPlayerByIndex P = some playerRecord)
    (hflag : playerRecord.currentFlag = handledFlag)
    (hrec : m.find P = some (some g))
    (hinactive : g.isActive = false)
    (hpyth : h.cos playerRecord.lastKnownState.rotation ^ 2
        + h.sin playerRecord.lastKnownState.rotation ^ 2 = 1) :
    ∃ (m' : GrenadeMap) (centre pos1 pos2 vel : Vec3) (d : ℚ × ℚ),
      shotFiredEvent h m P
        = some (m', [HostCall.fireServerShot "PZ" pos1 vel (h.getPlayerTeam P),
                     HostCall.fireServerShot "PZ" pos2 vel (h.getPlayerTeam P)])
      ∧ centre = launchPos h playerRecord
      ∧ d = (h.db.grenadeWidth * -(h.sin playerRecord.lastKnownState.rotation),
             h.db.grenadeWidth * h.cos playerRecord.lastKnownState.rotation)
      ∧ pos1 = ⟨centre.x + d.1, centre.y + d.2, centre.z + 0⟩
      ∧ pos2 = ⟨centre.x - d.1, centre.y - d.2, centre.z - 0⟩
      ∧ ((pos1.x + pos2.x) / 2 = centre.x ∧ (pos1.y + pos2.y) / 2 = centre.y
          ∧ (pos1.z + pos2.z) / 2 = centre.z)
      ∧ d.1 * h.cos playerRecord.lastKnownState.rotation
          + d.2 * h.sin playerRecord.lastKnownState.rotation = 0
      ∧ (pos1.x - centre.x) ^ 2 + (pos1.y - centre.y) ^ 2 = |h.db.grenadeWidth| ^ 2
      ∧ (pos2.x - centre.x) ^ 2 + (pos2.y - centre.y) ^ 2 = |h.db.grenadeWidth| ^ 2
      ∧ pos1.z = centre.z ∧ pos2.z = centre.z := by
  have hrun := shotFired_launch_of_inactive h m P playerRecord g hplayer hflag hrec
    (fun hact => by rw [hinactive] at hact; cases hact)
  have hsq : ∀ c s w : ℚ, c ^ 2 + s ^ 2 = 1 → (w * -s) ^ 2 + (w * c) ^ 2 = |w| ^ 2 := by
    intro c s w hcs
    rw [sq_abs]
    have : (w * -s) ^ 2 + (w * c) ^ 2 = w ^ 2 * (c ^ 2 + s ^ 2) := by ring
    rw [this, hcs, mul_one]
  refine ⟨_, launchPos h playerRecord, launchPos1 h playerRecord, launchPos2 h playerRecord,
    launchVel h playerRecord,
    (h.db.grenadeWidth * -(h.sin playerRecord.lastKnownState.rotation),
     h.db.grenadeWidth * h.cos playerRecord.lastKnownState.rotation),
    hrun, rfl, rfl, ?_, ?_, ⟨?_, ?_, ?_⟩, ?_, ?_, ?_, rfl, rfl⟩
  · simp [launchPos1, launchOffset, mul_comm]
  · simp [launchPos2, launchOffset, mul_comm]
  · simp only [launchPos1, launchPos2]; ring
  · simp only [launchPos1, launchPos2]; ring
  · simp only [launchPos1, launchPos2]; ring
  · ring
  · simp only [launchPos1, launchOffset]
    have := hsq _ _ h.db.grenadeWidth hpyth
    rw [← this]; ring
  · simp only [launchPos2, launchOffset]
    have := hsq _ _ h.db.grenadeWidth hpyth
    rw [← this]; ring

/-- Witness for C18: the stock shooter, heading 0, launches at time 0. -/
theorem side_shots_symmetric_witness :
    (stockHost 0).getPlayerByIndex 3 = some stockPlayer
      ∧ stockPlayer.currentFlag = handledFlag
      ∧ GrenadeMap.find [(3, some Grenade.new)] 3 = some (some Grenade.new)
      ∧ Grenade.new.isActive = false
      ∧ (stockHost 0).cos stockPlayer.lastKnownState.rotation ^ 2
          + (stockHost 0).sin stockPlayer.lastKnownState.rotation ^ 2 = 1
      ∧ ∃ (m' : GrenadeMap) (pos1 pos2 vel : Vec3),
          shotFiredEvent (stockHost 0) [(3, some Grenade.new)] 3
            = some (m', [HostCall.fireServerShot "PZ" pos1 vel 1,
                         HostCall.fireServerShot "PZ" pos2 vel 1])
          ∧ (pos1.x + pos2.x) / 2 = 4 ∧ (pos1.y + pos2.y) / 2 = 0
          ∧ (pos1.x - 4) ^ 2 + (pos1.y - 0) ^ 2 = |(2 : ℚ)| ^ 2 := by
  have hpyth : (stockHost 0).cos stockPlayer.lastKnownState.rotation ^ 2
      + (stockHost 0).sin stockPlayer.lastKnownState.rotation ^ 2 = 1 := by
    simp [stockHost]
  obtain ⟨m', centre, pos1, pos2, vel, d, hrun, hcentre, -, -, -, ⟨hmx, hmy, -⟩, -, hd1, -⟩ :=
    side_shots_symmetric (stockHost 0) [(3, some Grenade.new)] 3 stockPlayer Grenade.new
      rfl rfl (by simp [GrenadeMap.find]) rfl hpyth
  have hc : centre = ⟨4, 0, 1⟩ := by
    rw [hcentre]
    simp [launchPos, stockHost, stockDB, stockPlayer]
  rw [hc] at hmx hmy hd1
  exact ⟨rfl, rfl, by simp [GrenadeMap.find], rfl, hpyth, m', pos1, pos2, vel, hrun, hmx, hmy,
    hd1⟩

/-! ## The flag check -/

theorem shotFiredEvent_of_other_flag {h : Host} {m : GrenadeMap} {P : PlayerID}
    {playerRecord : BasePlayerRecord} (hplayer : h.getPlayerByIndex P = some playerRecord)
    (hflag : playerRecord.currentFlag ≠ handledFlag) :
    shotFiredEvent h m P = some (m, []) := by
  simp [shotFiredEvent, hplayer, hflag]

theorem shotFiredEvent_calls_ne_nil {h : Host} {m : GrenadeMap} {P : PlayerID}
    {playerRecord : BasePlayerRecord} {g : Grenade}
    (hplayer : h.getPlayerByIndex P = some playerRecord)
    (hflag : playerRecord.currentFlag = handledFlag)
    (hrec : m.find P = some (some g)) :
    ∃ m' calls, shotFiredEvent h m P = some (m', calls) ∧ calls ≠ [] := by
  simp only [shotFiredEvent, hplayer, hflag, if_true, GrenadeMap.index_of_find hrec]
  split_ifs <;> exact ⟨_, _, rfl, by simp⟩

/-- C19 fails as stated: the label the fire handler compares with is not the
registered name "Grenade" followed by " (+", the registered abbreviation "GN"
and ")"; a fire event from a player whose label is that string, with an idle
record, fires nothing and leaves the record idle. -/
theorem handledFlag_counterexample :
    registeredFlagName ++ " (+" ++ registeredFlagAbbv ++ ")" = "Grenade (+GN)"
      ∧ handledFlag ≠ registeredFlagName ++ " (+" ++ registeredFlagAbbv ++ ")"
      ∧ (plainLabelHost 0).getPlayerByIndex 3 = some plainLabelPlayer
      ∧ plainLabelPlayer.currentFlag = registeredFlagName ++ " (+" ++ registeredFlagAbbv ++ ")"
      ∧ shotFiredEvent (plainLabelHost 0) [(3, some Grenade.new)] 3
          = some ([(3, some Grenade.new)], []) := by
  refine ⟨by decide, by decide, rfl, by decide, ?_⟩
  exact shotFiredEvent_of_other_flag
    (rfl : (plainLabelHost 0).getPlayerByIndex 3 = some plainLabelPlayer) (by decide)

/-- C19, amended. The flag label the fire handler requires of the shooter's
current flag is exactly the string "GreNade (+GN)". It agrees with the
registered name "Grenade" followed by " (+", the registered abbreviation "GN"
and ")" up to letter case only. A fire event from a player whose label is
"GreNade (+GN)" and who has a record enters the launch/detonate logic (it
makes host calls); one from a player whose label is "Grenade (+GN)" is
ignored. -/
theorem handledFlag_label (h : Host) (m : GrenadeMap) (P : PlayerID)
    (playerRecord : BasePlayerRecord)
    (hplayer : h.getPlayerByIndex P = some playerRecord) :
    handledFlag = "GreNade (+GN)"
      ∧ handledFlag.data.map Char.toLower
          = (registeredFlagName ++ " (+" ++ registeredFlagAbbv ++ ")").data.map Char.toLower
      ∧ (playerRecord.currentFlag = "GreNade (+GN)" →
          ∀ g : Grenade, m.find P = some (some g) →
            ∃ m' calls, shotFiredEvent h m P = some (m', calls) ∧ calls ≠ [])
      ∧ (playerRecord.currentFlag = registeredFlagName ++ " (+" ++ registeredFlagAbbv ++ ")" →
          shotFiredEvent h m P = some (m, [])) := by
  refine ⟨rfl, by decide, ?_, ?_⟩
  · intro hflag g hrec
    exact shotFiredEvent_calls_ne_nil hplayer hflag hrec
  · intro hflag
    apply shotFiredEvent_of_other_flag hplayer
    rw [hflag]
    decide

/-- Witness for C19 (amended): the stock shooter, whose label is
"GreNade (+GN)", fires with an idle record. -/
theorem handledFlag_label_witness :
    (stockHost 0).getPlayerByIndex 3 = some stockPlayer
      ∧ stockPlayer.currentFlag = "GreNade (+GN)"
      ∧ GrenadeMap.find [(3, some Grenade.new)] 3 = some (some Grenade.new)
      ∧ ∃ m' calls, shotFiredEvent (stockHost 0) [(3, some Grenade.new)] 3 = some (m', calls)
          ∧ calls ≠ [] := by
  have hfind : GrenadeMap.find [(3, some Grenade.new)] 3 = some (some Grenade.new) := by
    simp [GrenadeMap.find]
  exact ⟨rfl, rfl, hfind,
    (handledFlag_label (stockHost 0) [(3, some Grenade.new)] 3 stockPlayer rfl).2.2.1 rfl
      Grenade.new hfind⟩

/-! ## Frame -/

/-- C20. For every tracker state and every fire event for player `P` that
the handler completes (launch, detonation, relaunch after expiry, or ignored
for want of the flag), the record of every other player `Q` is the same
after as before; a fire event from a player without the handled flag leaves
the whole map as it was; and a death event leaves the whole map as it
was. -/
theorem other_records_untouched (h : Host) (s : ShotHost) (m : GrenadeMap)
    (P Q : PlayerID) (hne : Q ≠ P) :
    (∀ r, shotFiredEvent h m P = some r → r.1.find Q = m.find Q)
      ∧ (∀ r, Event h s m (EventData.shotFired P) = some r → r.grenadeMap.find Q = m.find Q)
      ∧ (∀ playerRecord, h.getPlayerByIndex P = some playerRecord →
          playerRecord.currentFlag ≠ handledFlag → shotFiredEvent h m P = some (m, []))
      ∧ ∀ data, Event h s m (EventData.playerDie data)
          = some ⟨m, [], EventData.playerDie (playerDieEvent h s data)⟩ := by
  refine ⟨fun r hr => shotFiredEvent_find_of_ne hr hne, ?_,
    fun playerRecord hplayer hflag => shotFiredEvent_of_other_flag hplayer hflag,
    fun data => rfl⟩
  intro r hr
  simp only [Event] at hr
  cases hfire : shotFiredEvent h m P with
  | none => simp [hfire] at hr
  | some r0 =>
    simp only [hfire, Option.some.injEq] at hr
    rw [← hr]
    exact shotFiredEvent_find_of_ne hfire hne

/-- Witness for C20: player 3 detonates at time 1 while player 5 holds an
idle record. -/
theorem other_records_untouched_witness :
    (5 : PlayerID) ≠ 3
      ∧ ∃ r, shotFiredEvent (stockHost 1) twoPlayerMap 3 = some r
          ∧ r.1.find 5 = some (some Grenade.new) := by
  have hne : (5 : PlayerID) ≠ 3 := by decide
  obtain ⟨r, hr⟩ := shotFiredEvent_completes (h := stockHost 1) (m := twoPlayerMap) (P := 3)
    (g := flyingGrenade) (by simp [twoPlayerMap, GrenadeMap.find])
  refine ⟨hne, r, hr, ?_⟩
  rw [(other_records_untouched (stockHost 1) stockShots twoPlayerMap 3 5 hne).1 r hr]
  simp [twoPlayerMap, GrenadeMap.find]

/-! ## The integer reads of `_shotSpeed` and `_shotRange`, at failing inputs -/

/-- C1, evaluated at the failing input: `_shotSpeed` is 100.5 and player 3,
passing the flag check, fires at time 2 with an active record launched at
time 0 from (0,0,2) with velocity (1,0,0). The record is not expired, the
handler fires exactly one "SW" shot with velocity (0,0,0), tags it type "GN"
and owner 3 and clears the record, but places the shot at x = 200, not at
`origin + velocity * (now - initialTime) * shotSpeed` = 201. -/
theorem shotFired_detonates_truncates :
    ({ stockHost 2 with db := fractionalDB } : Host).getPlayerByIndex 3 = some stockPlayer
      ∧ stockPlayer.currentFlag = handledFlag
      ∧ Grenade.isActive
          { active := true, origin := ⟨0, 0, 2⟩, velocity := ⟨1, 0, 0⟩, initialTime := 0 } = true
      ∧ Grenade.isExpired
          { active := true, origin := ⟨0, 0, 2⟩, velocity := ⟨1, 0, 0⟩, initialTime := 0 }
          fractionalDB 2 = false
      ∧ shotFiredEvent { stockHost 2 with db := fractionalDB }
          [(3, some { active := true, origin := ⟨0, 0, 2⟩, velocity := ⟨1, 0, 0⟩,
                      initialTime := 0 })] 3
        = some ([(3, some { active := false, origin := ⟨0, 0, 0⟩, velocity := ⟨0, 0, 0⟩,
                            initialTime := 0 })],
            [HostCall.fireServerShot "SW" ⟨200, 0, 2⟩ ⟨0, 0, 0⟩ 1,
             HostCall.setShotMetaData 7 "type" (MetaData.str "GN"),
             HostCall.setShotMetaData 7 "owner" (MetaData.uint 3)])
      ∧ (0 : ℚ) + 1 * (2 - 0) * fractionalDB.shotSpeed = 201 := by
  have htrunc : bz_getBZDBInt (100.5 : ℚ) = 100 := by
    norm_num [bz_getBZDBInt, Int.floor_eq_iff]
  have h350 : bz_getBZDBInt (350 : ℚ) = 350 := bz_getBZDBInt_intCast 350
  refine ⟨rfl, rfl, rfl, ?_, ?_, ?_⟩
  · simp [Grenade.isExpired, Grenade.calculatePosition, fractionalDB, stockDB, htrunc, h350]
    norm_num
  · simp [shotFiredEvent, GrenadeMap.index, GrenadeMap.find, GrenadeMap.assign, stockHost,
      stockPlayer, handledFlag, Grenade.isActive, Grenade.isExpired, Grenade.calculatePosition,
      Grenade.clear, fractionalDB, stockDB, htrunc, h350]
    norm_num
  · norm_num [fractionalDB, stockDB]

/-- C4, evaluated at the failing input: `_shotRange` is 350.5, `_shotSpeed`
is 100, and a grenade launched at time 0 from (4,0,1) with velocity (4,0,0)
is inspected at time 3.502. Its projected z is 1 `> 0` and the distance
travelled, 350.2, is `< shotRange`, yet `isExpired` returns true, because the
range is read as 350. -/
theorem isExpired_truncates_shotRange :
    0 < (flyingGrenade.calculatePosition { stockDB with shotRange := 350.5 } 3.502).z
      ∧ ((3.502 : ℚ) - flyingGrenade.initialTime)
            * ({ stockDB with shotRange := 350.5 } : BZDB).shotSpeed
          < ({ stockDB with shotRange := 350.5 } : BZDB).shotRange
      ∧ flyingGrenade.isExpired { stockDB with shotRange := 350.5 } 3.502 = true := by
  have h100 : bz_getBZDBInt (100 : ℚ) = 100 := bz_getBZDBInt_intCast 100
  have htrunc : bz_getBZDBInt (350.5 : ℚ) = 350 := by
    norm_num [bz_getBZDBInt, Int.floor_eq_iff]
  refine ⟨?_, ?_, ?_⟩
  · simp [Grenade.calculatePosition, flyingGrenade]
  · norm_num [flyingGrenade, stockDB]
  · simp [Grenade.isExpired, Grenade.calculatePosition, flyingGrenade, stockDB, h100, htrunc]
    norm_num

/-- C15, evaluated at the failing input: `_shotSpeed` is 100.5; `init` stores
origin (4,0,1) and velocity (4,0,0) at time 10, and player 3, passing the
flag check, fires at time 11 (elapsed 1, record not expired). The blast is
reported at x = 404, which differs from the origin by 400, not by
`V.x * e * shotSpeed` = 402. -/
theorem roundTrip_truncates :
    Grenade.isExpired (Grenade.new.init ⟨4, 0, 1⟩ ⟨4, 0, 0⟩ 10) fractionalDB 11 = false
      ∧ shotFiredEvent { stockHost 11 with db := fractionalDB }
          [(3, some (Grenade.new.init ⟨4, 0, 1⟩ ⟨4, 0, 0⟩ 10))] 3
        = some ([(3, some (Grenade.new.init ⟨4, 0, 1⟩ ⟨4, 0, 0⟩ 10).clear)],
            [HostCall.fireServerShot "SW" ⟨404, 0, 1⟩ ⟨0, 0, 0⟩ 1,
             HostCall.setShotMetaData 7 "type" (MetaData.str "GN"),
             HostCall.setShotMetaData 7 "owner" (MetaData.uint 3)])
      ∧ (404 : ℚ) - 4 = 400
      ∧ (4 : ℚ) * (11 - 10) * fractionalDB.shotSpeed = 402 := by
  have htrunc : bz_getBZDBInt (100.5 : ℚ) = 100 := by
    norm_num [bz_getBZDBInt, Int.floor_eq_iff]
  have h350 : bz_getBZDBInt (350 : ℚ) = 350 := bz_getBZDBInt_intCast 350
  refine ⟨?_, ?_, by norm_num, ?_⟩
  · simp [Grenade.isExpired, Grenade.calculatePosition, Grenade.init, fractionalDB, stockDB,
      htrunc, h350]
    norm_num
  · simp [shotFiredEvent, GrenadeMap.index, GrenadeMap.find, GrenadeMap.assign, stockHost,
      stockPlayer, handledFlag, Grenade.isActive, Grenade.isExpired, Grenade.calculatePosition,
      Grenade.init, Grenade.clear, fractionalDB, stockDB, htrunc, h350]
    norm_num
  · norm_num [fractionalDB, stockDB]

end GrenadeFlag
